import Mathlib

/-!
Shallow embedding of the `maching-ab` reconciliation service, covering the
normalization helpers (`src/services.py`), the matching engine
(`src/matching.py`), the run orchestrator persistence step, the ingest
coordinator and the ruleset registry.  Python floats are modelled as `ℚ`,
machine strings as Lean `String`/`List Char` (ASCII reading of the regular
expressions), SQLite tables as Lean lists, and `Database.connect` transaction
semantics (commit on success, discard on exception) as `Except`-style results.
-/

set_option maxHeartbeats 1000000

namespace Recon

/-- ASCII whitespace, matching Python `str.strip` / regex `\s` on ASCII data. -/
def pyIsSpace (c : Char) : Bool :=
  c = ' ' ∨ c = '\t' ∨ c = '\n' ∨ c = '\r' ∨ c = '\x0b' ∨ c = '\x0c'

/-- Python `str.strip()` on a character list. -/
def pyStripL (l : List Char) : List Char :=
  ((l.dropWhile pyIsSpace).reverse.dropWhile pyIsSpace).reverse

/-- Python `str.upper()` (ASCII). -/
def pyUpperL (l : List Char) : List Char :=
  l.map Char.toUpper

/-- `re.sub(r"[\s\-]", "", raw)`: drop whitespace and hyphens. -/
def dropSpaceHyphen (l : List Char) : List Char :=
  l.filter (fun c => ¬ (pyIsSpace c ∨ c = '-'))

/-- `sanitize_pan_masked` from `src/services.py`, over the character list of
`str(value or "")`.  The digit class of the regexes is read as ASCII. -/
def sanitize_pan_masked (value : List Char) : List Char :=
  let raw := pyStripL value
  if raw = [] then ['*', '*', '*', '*']
  else
    let compact := dropSpaceHyphen raw
    if 12 ≤ compact.length ∧ compact.length ≤ 19 ∧ compact.all Char.isDigit then
      compact.take 6 ++ List.replicate (max 2 (compact.length - 10)) '*'
        ++ compact.drop (compact.length - 4)
    else
      if 12 ≤ compact.length ∧ compact.length ≤ 19 ∧
          compact.all (fun c => c.isDigit ∨ c = 'X' ∨ c = 'x' ∨ c = '*') then
        compact.map (fun c => if c = 'X' ∨ c = 'x' then '*' else c)
      else raw

/-- String-level wrapper of `sanitize_pan_masked`. -/
def sanitizePanMaskedS (s : String) : String :=
  ⟨sanitize_pan_masked s.toList⟩

namespace Matching

/-- Ruleset parameters (`RuleSet` dataclass in `src/matching.py`); floats as ℚ. -/
structure RuleSet where
  version : String
  amount_tolerance : ℚ
  date_window_days : ℤ
  score_threshold : ℚ
deriving DecidableEq

/-- Normalized transaction (`Txn` dataclass).  `txn_time` is modelled as the
absolute instant in seconds that `parse_date` would return; the ISO-8601
string decoding itself is elided, and `date_diff_days` works on instants. -/
structure Txn where
  txn_id : String
  source_system : String
  business_date : String
  rrn : String
  arn : Option String
  amount : ℚ
  currency : String
  txn_time : ℚ
  op_type : String
  merchant_id : String
  channel_id : String
deriving DecidableEq

/-- `date_diff_days`: absolute difference of instants in fractional days. -/
def date_diff_days (left right : ℚ) : ℚ :=
  |left - right| / 86400

/-- `amount_close(a, b, tol)`. -/
def amount_close (a b tol : ℚ) : Prop :=
  |a - b| ≤ tol

instance (a b tol : ℚ) : Decidable (amount_close a b tol) :=
  inferInstanceAs (Decidable (|a - b| ≤ tol))

/-- `op_compat_score`. -/
def op_compat_score (left right : String) : ℚ :=
  if left = right then 2/10
  else
    if [("PURCHASE", "CLEARING"), ("REFUND", "CHARGEBACK"), ("REVERSAL", "REVERSAL")].contains
          (left, right) ∨
        [("PURCHASE", "CLEARING"), ("REFUND", "CHARGEBACK"), ("REVERSAL", "REVERSAL")].contains
          (right, left) then 1/10
    else 0

/-- Python `round(x, n)` modelled as rounding `x·10^n` to an integer (exact
half-way ties, which Python resolves to even on binary floats, are immaterial
once the floats are modelled as the rationals they denote). -/
def roundTo (n : ℕ) (x : ℚ) : ℚ :=
  (round (x * 10 ^ n) : ℤ) / 10 ^ n

/-- The score breakdown dict returned by `fuzzy_score`. -/
structure ScoreDetails where
  amount_delta : ℚ
  date_delta_days : ℚ
  amount_penalty : ℚ
  date_penalty : ℚ
  compat_bonus : ℚ
deriving DecidableEq

/-- `fuzzy_score(left, right, rules)`. -/
def fuzzy_score (left right : Txn) (rules : RuleSet) : ℚ × ScoreDetails :=
  let amount_delta := |left.amount - right.amount|
  let date_delta := date_diff_days left.txn_time right.txn_time
  let amount_penalty := min (amount_delta / max rules.amount_tolerance (1/100)) 1 * (1/2)
  let date_penalty := min (date_delta / max (rules.date_window_days : ℚ) 1) 1 * (3/10)
  let compat_bonus := op_compat_score left.op_type right.op_type
  let score := max 0 (min 1 (1 - amount_penalty - date_penalty + compat_bonus))
  (score,
    { amount_delta := roundTo 2 amount_delta
      date_delta_days := date_delta
      amount_penalty := roundTo 4 amount_penalty
      date_penalty := roundTo 4 date_penalty
      compat_bonus := roundTo 4 compat_bonus })

/-- The `explain` payload attached to a match record. -/
inductive Explain where
  | exact : Explain
  | arn : ScoreDetails → Explain
  | fuzzy : ScoreDetails → Explain
  | one_to_many : ℕ → Explain
deriving DecidableEq

/-- A `match_records` entry produced by `record_match`. -/
structure MatchRec where
  left_txn_id : String
  right_txn_id : Option String
  match_type : String
  score : ℚ
  reason_code : String
  explain : Explain
deriving DecidableEq

/-- An `exception_records` entry. -/
structure ExcRec where
  primary_txn_id : String
  category : String
  severity : String
  status : String
  reason : String
deriving DecidableEq

/-- Insertion-ordered model of a Python `dict` keyed by txn id. -/
abbrev Dict := List (String × Txn)

/-- `k in d`. -/
def dmem (d : Dict) (k : String) : Bool :=
  d.any (fun p => p.1 = k)

/-- `d.pop(k, None)`: drop the entry with key `k`, keep the rest in order. -/
def dpop (d : Dict) (k : String) : Dict :=
  d.filter (fun p => ¬ p.1 = k)

/-- `d[k] = v`: replace in place when the key exists, else append. -/
def dinsert (d : Dict) (k : String) (v : Txn) : Dict :=
  if dmem d k then d.map (fun p => if p.1 = k then (k, v) else p) else d ++ [(k, v)]

/-- `list(d.values())`. -/
def dvalues (d : Dict) : List Txn :=
  d.map Prod.snd

/-- `{t.txn_id: t for t in ts}`. -/
def seedDict (ts : List Txn) : Dict :=
  ts.foldl (fun d t => dinsert d t.txn_id t) []

/-- The engine's mutable locals: the two working sets and the two outputs. -/
structure EngineState where
  way4_left : Dict
  visa_left : Dict
  match_records : List MatchRec
  exceptions : List ExcRec
deriving DecidableEq

/-- `record_match` in `match_transactions`. -/
def record_match (st : EngineState) (left : Txn) (right : Option Txn)
    (match_type : String) (score : ℚ) (reason : String) (explain : Explain) : EngineState :=
  { way4_left := dpop st.way4_left left.txn_id
    visa_left :=
      match right with
      | some r => dpop st.visa_left r.txn_id
      | none => st.visa_left
    match_records := st.match_records ++
      [{ left_txn_id := left.txn_id
         right_txn_id := right.map Txn.txn_id
         match_type := match_type
         score := roundTo 4 score
         reason_code := reason
         explain := explain }]
    exceptions := st.exceptions }

/-- `record_exception` in `match_transactions`. -/
def record_exception (st : EngineState) (txn : Txn)
    (category severity reason : String) : EngineState :=
  { st with
    exceptions := st.exceptions ++
      [{ primary_txn_id := txn.txn_id
         category := category
         severity := severity
         status := "NEW"
         reason := reason }] }

/-- Surviving candidates of the exact pass: `exact_idx` entries for `w`'s
quadruple key that are still in `visa_left`. -/
def exactCandidates (visa : List Txn) (st : EngineState) (w : Txn) : List Txn :=
  (visa.filter fun c => c.rrn = w.rrn ∧ roundTo 2 c.amount = roundTo 2 w.amount ∧
    c.currency = w.currency ∧ c.business_date = w.business_date).filter
    (fun c => dmem st.visa_left c.txn_id)

/-- Body of the exact-quadruple pass for one left row. -/
def pass1Step (visa : List Txn) (st : EngineState) (w : Txn) : EngineState :=
  match exactCandidates visa st w with
  | [c] => record_match st w (some c) "MATCHED" 1 "EXACT_RRN_AMOUNT_CURR_DATE" Explain.exact
  | [] => st
  | _ :: _ :: _ => record_exception st w "DUPLICATE" "HIGH" "MULTI_CANDIDATE_EXACT"

/-- Python truthiness of the optional `arn` field. -/
def truthyArn : Option String → Bool
  | none => false
  | some s => s ≠ ""

/-- Surviving candidates of the arn pass: `arn_idx[w.arn]` entries still in
`visa_left` (the index only holds rows with a truthy arn). -/
def arnCandidates (visa : List Txn) (st : EngineState) (w : Txn) : List Txn :=
  (visa.filter fun c => truthyArn c.arn ∧ c.arn = w.arn).filter
    (fun c => dmem st.visa_left c.txn_id)

/-- Body of the arn-keyed pass for one left row. -/
def pass2Step (visa : List Txn) (rules : RuleSet) (st : EngineState) (w : Txn) : EngineState :=
  if truthyArn w.arn then
    match arnCandidates visa st w with
    | [c] =>
      let sd := fuzzy_score w c rules
      if rules.score_threshold ≤ sd.1 then
        record_match st w (some c)
          (if 0 < |w.amount - c.amount| then "PARTIAL_MATCH" else "MATCHED")
          sd.1 "ARN_MATCH_WITH_TOLERANCE" (Explain.arn sd.2)
      else st
    | _ => st
  else st

/-- Surviving candidates of the fuzzy pass: `rrn_cur_idx[(w.rrn, w.currency)]`
entries still in `visa_left` and inside the date window. -/
def fuzzyCandidates (visa : List Txn) (rules : RuleSet) (st : EngineState) (w : Txn) : List Txn :=
  (visa.filter fun c => c.rrn = w.rrn ∧ c.currency = w.currency).filter
    (fun c => dmem st.visa_left c.txn_id ∧
      date_diff_days w.txn_time c.txn_time ≤ (rules.date_window_days : ℚ))

/-- Descending-by-score order used by `scored.sort(key=..., reverse=True)`. -/
def scoreRel (a b : ℚ × Txn × ScoreDetails) : Prop :=
  b.1 ≤ a.1

instance : DecidableRel scoreRel :=
  fun a b => inferInstanceAs (Decidable (b.1 ≤ a.1))

instance : IsTotal (ℚ × Txn × ScoreDetails) scoreRel :=
  ⟨fun a b => le_total b.1 a.1⟩

instance : IsTrans (ℚ × Txn × ScoreDetails) scoreRel :=
  ⟨fun _ _ _ hab hbc => le_trans hbc hab⟩

/-- The `(score, candidate, details)` triples of the fuzzy pass. -/
def scoredList (rules : RuleSet) (w : Txn) (candidates : List Txn) :
    List (ℚ × Txn × ScoreDetails) :=
  candidates.map (fun c =>
    let p := fuzzy_score w c rules
    (p.1, c, p.2))

/-- `scored[1][0] if len(scored) > 1 else -1`, reading the tail of the sorted
list. -/
def secondScore : List (ℚ × Txn × ScoreDetails) → ℚ
  | [] => -1
  | s :: _ => s.1

/-- Body of the fuzzy pass for one left row.  Python's stable `sort` with
`reverse=True` is modelled by insertion sort under `scoreRel`, which is the
same stable descending sort. -/
def pass3Step (visa : List Txn) (rules : RuleSet) (st : EngineState) (w : Txn) : EngineState :=
  let candidates := fuzzyCandidates visa rules st w
  match List.insertionSort scoreRel (scoredList rules w candidates) with
  | [] => st
  | top :: rest =>
    let second : ℚ := secondScore rest
    if rules.score_threshold ≤ top.1 ∧ 5/100 < top.1 - second then
      record_match st w (some top.2.1)
        (if 0 < |w.amount - top.2.1.amount| then "PARTIAL_MATCH" else "MATCHED")
        top.1 "FUZZY_SCORE" (Explain.fuzzy top.2.2)
    else st

/-- `itertools.combinations`: all length-`n` sublists, lexicographic by
position, members in original order. -/
def combinations {α : Type} : ℕ → List α → List (List α)
  | 0, _ => [[]]
  | _ + 1, [] => []
  | n + 1, x :: xs => ((combinations n xs).map (fun c => x :: c)) ++ combinations (n + 1) xs

/-- Candidates of the one-to-many pass: same rrn/currency/merchant, taken from
the current working set. -/
def otmCandidates (st : EngineState) (w : Txn) : List Txn :=
  (dvalues st.visa_left).filter fun c =>
    c.rrn = w.rrn ∧ c.currency = w.currency ∧ c.merchant_id = w.merchant_id

/-- Success test for a combination: rounded sum within tolerance of the
rounded left amount. -/
def comboOk (rules : RuleSet) (w : Txn) (combo : List Txn) : Prop :=
  amount_close (roundTo 2 (combo.map Txn.amount).sum) (roundTo 2 w.amount) rules.amount_tolerance

instance (rules : RuleSet) (w : Txn) (combo : List Txn) : Decidable (comboOk rules w combo) :=
  inferInstanceAs (Decidable (amount_close _ _ _))

/-- Body of the one-to-many pass for one left row: try r=2 then r=3, first
passing combination wins, one PARTIAL_MATCH per member. -/
def pass4Step (rules : RuleSet) (st : EngineState) (w : Txn) : EngineState :=
  let candidates := otmCandidates st w
  match (combinations 2 candidates ++ combinations 3 candidates).find?
      (fun combo => comboOk rules w combo) with
  | none => st
  | some combo =>
    combo.foldl (fun st c =>
      record_match st w (some c) "PARTIAL_MATCH" (8/10) "ONE_TO_MANY_SUM_MATCH"
        (Explain.one_to_many combo.length)) st

/-- Terminal pass over the left working set. -/
def missingVisaStep (st : EngineState) (w : Txn) : EngineState :=
  record_exception st w "MISSING_IN_VISA" "MEDIUM" "No cross-source candidate found"

/-- Terminal exception for a surviving right row. -/
def missingWay4Row (v : Txn) : ExcRec :=
  { primary_txn_id := v.txn_id
    category := "MISSING_IN_WAY4"
    severity := "MEDIUM"
    status := "NEW"
    reason := "No Way4 candidate found" }

/-- `match_transactions(way4, visa, rules)` from `src/matching.py`. -/
def match_transactions (way4 visa : List Txn) (rules : RuleSet) :
    List MatchRec × List ExcRec :=
  let st0 : EngineState := ⟨seedDict way4, seedDict visa, [], []⟩
  let st1 := (dvalues st0.way4_left).foldl (pass1Step visa) st0
  let st2 := (dvalues st1.way4_left).foldl (pass2Step visa rules) st1
  let st3 := (dvalues st2.way4_left).foldl (pass3Step visa rules) st2
  let st4 := (dvalues st3.way4_left).foldl (pass4Step rules) st3
  let st5 := (dvalues st4.way4_left).foldl missingVisaStep st4
  let st6 := { st5 with exceptions := st5.exceptions ++ (dvalues st5.visa_left).map missingWay4Row }
  (st6.match_records, st6.exceptions)

/-- `count` of match records carrying a given right txn id. -/
def countRight (ms : List MatchRec) (id : String) : ℕ :=
  ms.countP (fun m => m.right_txn_id = some id)

/-- The engine state after the four matching passes (the let-chain of
`match_transactions` up to `st4`). -/
def engineStage4 (way4 visa : List Txn) (rules : RuleSet) : EngineState :=
  let st0 : EngineState := ⟨seedDict way4, seedDict visa, [], []⟩
  let st1 := (dvalues st0.way4_left).foldl (pass1Step visa) st0
  let st2 := (dvalues st1.way4_left).foldl (pass2Step visa rules) st1
  let st3 := (dvalues st2.way4_left).foldl (pass3Step visa rules) st2
  (dvalues st3.way4_left).foldl (pass4Step rules) st3

/-- The engine state after the terminal exception passes; projecting out its
two output lists gives `match_transactions`. -/
def engineFinal (way4 visa : List Txn) (rules : RuleSet) : EngineState :=
  let st4 := engineStage4 way4 visa rules
  let st5 := (dvalues st4.way4_left).foldl missingVisaStep st4
  { st5 with exceptions := st5.exceptions ++ (dvalues st5.visa_left).map missingWay4Row }

/-- Bookkeeping invariant of the four matching passes over the seeded working
sets `w0`/`v0`: well-formed dictionaries, every id still in `visa_left` is
unmatched, every right id is matched at most once, every seeded id is either
still in its working set or already matched, and through stage 4 all
exceptions are DUPLICATE and all match types MATCHED/PARTIAL_MATCH. -/
def EngineInv (w0 v0 : Dict) (st : EngineState) : Prop :=
  (st.visa_left.map Prod.fst).Nodup ∧
  (∀ p ∈ st.visa_left, p.1 = p.2.txn_id) ∧
  (∀ p ∈ st.way4_left, p.1 = p.2.txn_id) ∧
  (∀ id, dmem st.visa_left id = true → countRight st.match_records id = 0) ∧
  (∀ id, countRight st.match_records id ≤ 1) ∧
  (∀ id, dmem v0 id = true → dmem st.visa_left id = true ∨
    ∃ m ∈ st.match_records, m.right_txn_id = some id) ∧
  (∀ id, dmem w0 id = true → dmem st.way4_left id = true ∨
    ∃ m ∈ st.match_records, m.left_txn_id = id) ∧
  (∀ e ∈ st.exceptions, e.category = "DUPLICATE") ∧
  (∀ m ∈ st.match_records, m.match_type = "MATCHED" ∨ m.match_type = "PARTIAL_MATCH")

end Matching

namespace ResultView

/-- The match-side CASE of the unified view in `get_run_results`. -/
def viewMatchStatus (mt : String) : String :=
  if mt = "MATCHED" then "MATCHED"
  else
    if mt = "PARTIAL_MATCH" then "PARTIAL"
    else
      if mt = "DUPLICATE_SUSPECT" then "DUPLICATE"
      else "MISMATCH"

/-- The exception-side CASE of the unified view in `get_run_results`. -/
def viewExcStatus (cat : String) : String :=
  if cat = "MISSING_IN_WAY4" then "MISSING_IN_WAY4"
  else
    if cat = "MISSING_IN_VISA" then "MISSING_IN_VISA"
    else
      if cat = "DUPLICATE" then "DUPLICATE"
      else
        if cat = "AMOUNT_MISMATCH" then "MISMATCH"
        else
          if cat = "DATE_MISMATCH" then "MISMATCH"
          else
            if cat = "STATUS_MISMATCH" then "MISMATCH"
            else
              if cat = "OPTYPE_MISMATCH" then "MISMATCH"
              else "MISMATCH"

/-- The unified statuses of a FINISHED run whose persisted rows are exactly
the engine's outputs: one row per match record and per exception case. -/
def runStatuses (ms : List Matching.MatchRec) (es : List Matching.ExcRec) : List String :=
  ms.map (fun m => viewMatchStatus m.match_type) ++ es.map (fun e => viewExcStatus e.category)

end ResultView

/-- Python `str.strip()` on `String`. -/
def pyStripS (s : String) : String :=
  ⟨pyStripL s.toList⟩

/-- Python `str.upper()` on `String` (ASCII). -/
def pyUpperS (s : String) : String :=
  ⟨pyUpperL s.toList⟩

/-- Error kinds surfaced by `AppService` commands (`ForbiddenError`,
`ValidationError`). -/
inductive AppError where
  | forbidden : String → AppError
  | validation : String → AppError
deriving DecidableEq

/-- A row of `audit_events` (`AppService._audit`); `audit_id` elided. -/
structure AuditRow where
  event_at : String
  actor_login : String
  source_ip : String
  object_type : String
  object_id : Option String
  action : String
  result : String
  details : String
deriving DecidableEq

namespace RunOrch

/-- A row of `match_runs`. -/
structure RunRow where
  run_id : String
  business_date : String
  scope_filter : String
  ruleset_version : String
  started_at : String
  finished_at : Option String
  status : String
  created_by : String
deriving DecidableEq

/-- The tables touched by `AppService.run_matching`; `match_results` /
`exception_cases` rows are kept as `(run_id, engine record)` pairs, the
generated uuid row ids being irrelevant to the tracked properties. -/
structure RunDb where
  match_runs : List RunRow
  match_results : List (String × Matching.MatchRec)
  exception_cases : List (String × Matching.ExcRec)
  audit_events : List AuditRow
deriving DecidableEq

/-- Step 4 of `run_matching`: insert the RUNNING row and `conn.commit()` it. -/
def run_step4 (db : RunDb) (run_id business_date scope_filter ruleset_version
    started actor : String) : RunDb :=
  { db with
    match_runs := db.match_runs ++
      [{ run_id := run_id
         business_date := business_date
         scope_filter := scope_filter
         ruleset_version := ruleset_version
         started_at := started
         finished_at := none
         status := "RUNNING"
         created_by := actor }] }

/-- Step 5 of `run_matching` with failure injection.  `failAt = none` is the
success path: stage every match then exception insert, set FINISHED, audit
SUCCESS, commit.  `failAt = some j` means the `j`-th insert statement
(0-based, matches before exceptions) raises before executing — as the repo's
`test_run_failure_rolls_back_partial_results` forces via `json.dumps`.  The
`except` handler is transcribed as the code has it: it stages the FAILED
update and the FAILURE audit and then calls `conn.commit()`, which commits
every insert already staged on the connection (there is no `conn.rollback()`
in the handler).  Returns the committed database and whether the error was
re-raised. -/
def run_step5 (db : RunDb) (run_id actor source_ip finished_ts err_sig : String)
    (ms : List Matching.MatchRec) (es : List Matching.ExcRec)
    (failAt : Option ℕ) : RunDb × Bool :=
  match failAt with
  | none =>
    ({ match_runs := db.match_runs.map (fun r =>
         if r.run_id = run_id then { r with finished_at := some finished_ts, status := "FINISHED" }
         else r)
       match_results := db.match_results ++ ms.map (fun m => (run_id, m))
       exception_cases := db.exception_cases ++ es.map (fun e => (run_id, e))
       audit_events := db.audit_events ++
         [{ event_at := finished_ts
            actor_login := actor
            source_ip := source_ip
            object_type := "match_run"
            object_id := some run_id
            action := "MATCH_RUN_EXECUTE"
            result := "SUCCESS"
            details := "matches=" ++ toString ms.length ++ " exceptions=" ++ toString es.length }] },
     false)
  | some j =>
    ({ match_runs := db.match_runs.map (fun r =>
         if r.run_id = run_id then { r with finished_at := some finished_ts, status := "FAILED" }
         else r)
       match_results := db.match_results ++ (ms.take j).map (fun m => (run_id, m))
       exception_cases := db.exception_cases ++ ((es.take (j - ms.length)).map (fun e => (run_id, e)))
       audit_events := db.audit_events ++
         [{ event_at := finished_ts
            actor_login := actor
            source_ip := source_ip
            object_type := "match_run"
            object_id := some run_id
            action := "MATCH_RUN_EXECUTE"
            result := "FAILURE"
            details := err_sig }] },
     true)

/-- The failing-run scenario forced by the repo's
`test_run_failure_rolls_back_partial_results`: two staged MATCHED inserts for
run "R", with the second insert statement raising. -/
def failedRunScenario : RunDb × Bool :=
  run_step5 (run_step4 ⟨[], [], [], []⟩ "R" "2026-02-28" "ALL" "v1" "t0" "admin")
    "R" "admin" "127.0.0.1" "t1" "RuntimeError: forced_mid_insert_failure"
    [{ left_txn_id := "W1", right_txn_id := some "V1", match_type := "MATCHED",
       score := 1, reason_code := "EXACT_RRN_AMOUNT_CURR_DATE",
       explain := Matching.Explain.exact },
     { left_txn_id := "W2", right_txn_id := some "V2", match_type := "MATCHED",
       score := 1, reason_code := "EXACT_RRN_AMOUNT_CURR_DATE",
       explain := Matching.Explain.exact }]
    [] (some 1)

end RunOrch

namespace Ingest

/-- `normalize_op_type` from `src/services.py`. -/
def normalize_op_type (value : String) : String :=
  let v := pyUpperS (pyStripS value)
  if v ∈ ["PURCHASE", "CLEARING", "SETTLEMENT", "REFUND", "REVERSAL", "CHARGEBACK",
      "ADJUSTMENT"] then v
  else "PURCHASE"

/-- `normalize_currency` from `src/services.py`. -/
def normalize_currency (value : String) : String :=
  (pyUpperS (pyStripS value)).take 3

/-- One entry of `payload["records"]`; absent JSON keys are `none`, `amount`
and `fee_amount` as numbers. -/
structure RecPayload where
  rrn : Option String
  arn : Option String
  pan_masked : Option String
  amount : Option ℚ
  currency : Option String
  txn_time : Option String
  op_type : Option String
  merchant_id : Option String
  channel_id : Option String
  status_norm : Option String
  fee_amount : Option ℚ
  fee_currency : Option String
deriving DecidableEq

/-- The `ingest_file` payload; the five file-level required fields are plain
strings with `""` standing for an absent or falsy value. -/
structure IngestPayload where
  source : String
  business_date : String
  file_name : String
  checksum_sha256 : String
  parser_profile : String
  received_at : Option String
  records : List RecPayload
deriving DecidableEq

/-- A row of `ingest_files`. -/
structure FileRow where
  file_id : String
  source_system : String
  business_date : String
  file_name : String
  checksum_sha256 : String
  parser_profile : String
  received_at : String
  status : String
  record_count : ℕ
  created_by : String
deriving DecidableEq

/-- A row of `txns` as written by `_insert_txn`. -/
structure TxnRow where
  txn_id : String
  source_system : String
  business_date : String
  rrn : String
  arn : Option String
  pan_masked : String
  pan_hash : String
  amount : ℚ
  currency : String
  txn_time : String
  op_type : String
  merchant_id : String
  channel_id : String
  status_norm : String
  fee_amount : ℚ
  fee_currency : String
deriving DecidableEq

/-- The tables touched by `ingest_file`, plus a counter feeding the row-id
generator (modelling `uuid.uuid4()` freshness). -/
structure IngestDb where
  ingest_files : List FileRow
  txns : List TxnRow
  audit_events : List AuditRow
  ctr : ℕ
deriving DecidableEq

/-- The JSON body returned by `ingest_file`. -/
structure IngestResult where
  file_id : String
  status : String
  record_count : ℕ
  duplicate : Bool
deriving DecidableEq

/-- `rec.get(k) in (None, "")` for string fields. -/
def missingStr : Option String → Bool
  | none => true
  | some s => s = ""

/-- The per-record required-field check of `_insert_txn`. -/
def recMissing (rec : RecPayload) : Bool :=
  missingStr rec.rrn ∨ rec.amount = none ∨ missingStr rec.currency ∨
    missingStr rec.txn_time ∨ missingStr rec.merchant_id ∨ missingStr rec.channel_id

/-- `AppService._insert_txn`: validate, normalize, stage one `txns` row.
`hashFn` abstracts the keyed HMAC `hash_pan`; `genId` draws fresh row ids
from the counter. -/
def insert_txn (hashFn : String → String) (genId : ℕ → String)
    (db : IngestDb) (source_system business_date : String) (rec : RecPayload) :
    Except AppError IngestDb :=
  if recMissing rec then .error (.validation "Transaction missing required fields")
  else
    let masked := sanitizePanMaskedS (rec.pan_masked.getD "")
    .ok { db with
      txns := db.txns ++
        [{ txn_id := genId db.ctr
           source_system := source_system
           business_date := business_date
           rrn := pyUpperS (pyStripS (rec.rrn.getD ""))
           arn :=
             (let a := pyUpperS (pyStripS (rec.arn.getD ""))
              if a = "" then none else some a)
           pan_masked := masked
           pan_hash := hashFn masked
           amount := rec.amount.getD 0
           currency := normalize_currency (rec.currency.getD "")
           txn_time := rec.txn_time.getD ""
           op_type := normalize_op_type (rec.op_type.getD "PURCHASE")
           merchant_id := pyUpperS (pyStripS (rec.merchant_id.getD ""))
           channel_id := pyUpperS (pyStripS (rec.channel_id.getD ""))
           status_norm := pyUpperS (pyStripS (rec.status_norm.getD "BOOKED"))
           fee_amount := rec.fee_amount.getD 0
           fee_currency := normalize_currency (rec.fee_currency.getD (rec.currency.getD "")) }]
      ctr := db.ctr + 1 }

/-- The `for rec in records: self._insert_txn(...)` loop; the first
validation error aborts the surrounding transaction. -/
def insertTxns (hashFn : String → String) (genId : ℕ → String)
    (source_system business_date : String) :
    IngestDb → List RecPayload → Except AppError IngestDb
  | db, [] => .ok db
  | db, rec :: rest =>
    match insert_txn hashFn genId db source_system business_date rec with
    | .error e => .error e
    | .ok db1 => insertTxns hashFn genId source_system business_date db1 rest

/-- `AppService.ingest_file`.  `perm` is the outcome of the `ingest:write`
permission check; `now` stands for `now_iso()`.  A returned `.error` models a
raised exception: `Database.connect` then skips `conn.commit()` and the
closed connection discards every staged row, so the caller's database is
unchanged. -/
def ingest_file (hashFn : String → String) (genId : ℕ → String) (now : String)
    (perm : Bool) (actor source_ip : String) (db : IngestDb) (p : IngestPayload) :
    Except AppError (IngestDb × IngestResult) :=
  if ¬ perm then .error (.forbidden "Permission denied: ingest:write")
  else
    if p.source = "" ∨ p.business_date = "" ∨ p.file_name = "" ∨
        p.checksum_sha256 = "" ∨ p.parser_profile = "" then
      .error (.validation "Missing required fields")
    else
      let source := pyUpperS (pyStripS p.source)
      match db.ingest_files.find? (fun f => f.source_system = source ∧
          f.business_date = p.business_date ∧ f.checksum_sha256 = p.checksum_sha256) with
      | some f =>
        .ok ({ db with
                audit_events := db.audit_events ++
                  [{ event_at := now
                     actor_login := actor
                     source_ip := source_ip
                     object_type := "ingest_file"
                     object_id := some f.file_id
                     action := "INGEST_REGISTER"
                     result := "DUPLICATE"
                     details := "Idempotent duplicate request" }] },
             { file_id := f.file_id
               status := f.status
               record_count := f.record_count
               duplicate := true })
      | none =>
        let file_id := genId db.ctr
        let db1 : IngestDb :=
          { db with
            ingest_files := db.ingest_files ++
              [{ file_id := file_id
                 source_system := source
                 business_date := p.business_date
                 file_name := p.file_name
                 checksum_sha256 := p.checksum_sha256
                 parser_profile := p.parser_profile
                 received_at :=
                   (match p.received_at with
                    | some s => if s = "" then now else s
                    | none => now)
                 status := "PARSED"
                 record_count := p.records.length
                 created_by := actor }]
            ctr := db.ctr + 1 }
        match insertTxns hashFn genId source p.business_date db1 p.records with
        | .error e => .error e
        | .ok db2 =>
          .ok ({ db2 with
                  audit_events := db2.audit_events ++
                    [{ event_at := now
                       actor_login := actor
                       source_ip := source_ip
                       object_type := "ingest_file"
                       object_id := some file_id
                       action := "INGEST_REGISTER"
                       result := "SUCCESS"
                       details := "records=" ++ toString p.records.length }] },
               { file_id := file_id
                 status := "PARSED"
                 record_count := p.records.length
                 duplicate := false })

end Ingest

namespace Rules

/-- A row of `rulesets` with the `json_text` payload inlined as its three
parameters; floats as ℚ. -/
structure RulesetRow where
  version : String
  is_active : Bool
  amount_tolerance : ℚ
  date_window_days : ℤ
  score_threshold : ℚ
  created_at : String
deriving DecidableEq

/-- The `put_ruleset` payload: `None` for an absent key.  `date_window_days`
arrives as a JSON number and is truncated by Python `int(...)`. -/
structure PutPayload where
  version : Option String
  amount_tolerance : Option ℚ
  date_window_days : Option ℚ
  score_threshold : Option ℚ
deriving DecidableEq

/-- Python `int(...)` on a number: truncation toward zero. -/
def pyInt (q : ℚ) : ℤ :=
  if 0 ≤ q then ⌊q⌋ else ⌈q⌉

/-- `AppService.put_ruleset` on the `rulesets` table.  `perm` is the
`admin:rules` check; `nowVersion` is the wall-clock auto version, `nowTs` the
`created_at` stamp.  The audit insert and the echoed response body are not
modelled (no tracked claim mentions them).  `UPDATE rulesets SET is_active=0`
then `INSERT OR REPLACE` become: deactivate every row, drop any row with the
new version, append the new active row. -/
def put_ruleset (perm : Bool) (nowVersion nowTs : String)
    (db : List RulesetRow) (p : PutPayload) :
    Except AppError (List RulesetRow × String) :=
  if ¬ perm then .error (.forbidden "Permission denied: admin:rules")
  else
    if p.amount_tolerance = none then .error (.validation "amount_tolerance is required")
    else
      if p.date_window_days = none then .error (.validation "date_window_days is required")
      else
        if p.score_threshold = none then .error (.validation "score_threshold is required")
        else
          let version :=
            match p.version with
            | some v => if v = "" then nowVersion else v
            | none => nowVersion
          let row : RulesetRow :=
            { version := version
              is_active := true
              amount_tolerance := p.amount_tolerance.getD 0
              date_window_days := pyInt (p.date_window_days.getD 0)
              score_threshold := p.score_threshold.getD 0
              created_at := nowTs }
          .ok (((db.map (fun r => { r with is_active := false })).filter
              (fun r => ¬ r.version = version)) ++ [row], version)

/-- `DEFAULT_RULESET` from `src/config.py`. -/
def default_ruleset_row (nowTs : String) : RulesetRow :=
  { version := "v1"
    is_active := true
    amount_tolerance := 2
    date_window_days := 1
    score_threshold := 3/4
    created_at := nowTs }

/-- `AppService._ensure_default_ruleset`: no-op when an active row exists;
otherwise a plain `INSERT` of the default row, which raises (and the
transaction is discarded) when the primary-key version "v1" already exists
inactive. -/
def ensure_default_ruleset (nowTs : String) (db : List RulesetRow) :
    Except Unit (List RulesetRow) :=
  if db.any (fun r => r.is_active) then .ok db
  else
    if db.any (fun r => r.version = "v1") then .error ()
    else .ok (db ++ [default_ruleset_row nowTs])

/-- `count(Ruleset where isActive)`. -/
def countActive (db : List RulesetRow) : ℕ :=
  db.countP (fun r => r.is_active)

end Rules

end Recon

deriving instance DecidableEq for Except

lemma filter_dropWhile {α : Type} {p q : α → Bool}
    (h : ∀ c, p c = true → q c = false) (l : List α) :
    (l.dropWhile p).filter q = l.filter q := by
  induction l with
  | nil => rfl
  | cons a t ih =>
    by_cases ha : p a = true
    · rw [List.dropWhile_cons_of_pos ha, ih, List.filter_cons, h a ha]
      simp
    · rw [List.dropWhile_cons_of_neg ha]

lemma dropSpaceHyphen_pyStripL (l : List Char) :
    Recon.dropSpaceHyphen (Recon.pyStripL l) = Recon.dropSpaceHyphen l := by
  have h : ∀ c : Char, Recon.pyIsSpace c = true →
      (decide ¬ (Recon.pyIsSpace c = true ∨ c = '-')) = false := by
    intro c hc; simp [hc]
  show (((l.dropWhile Recon.pyIsSpace).reverse.dropWhile Recon.pyIsSpace).reverse).filter _ = _
  rw [List.filter_reverse, filter_dropWhile h, List.filter_reverse,
    List.reverse_reverse, filter_dropWhile h]
  rfl

lemma pyStripL_ne_nil_of_filter {l : List Char}
    (h : Recon.dropSpaceHyphen (Recon.pyStripL l) ≠ []) : Recon.pyStripL l ≠ [] := by
  intro hnil
  rw [hnil] at h
  exact h rfl

lemma getD_replicate_lt (c d : Char) :
    ∀ (m i : ℕ), i < m → (List.replicate m c).getD i d = c
  | m + 1, 0, _ => rfl
  | m + 1, i + 1, h => getD_replicate_lt c d m i (by omega)

/-- C5: for every raw PAN whose whitespace/hyphen-free form is 12..19 digits,
`sanitize_pan_masked` returns the first 6 digits, then `max 2 (len-10)`
asterisks, then the last 4 digits; so the output has 6 leading digits, at
least 2 asterisks, 4 trailing digits, and only `'*'` between them (no middle
digit of the input survives). -/
theorem C5_pan_sanitization (value : List Char)
    (h12 : 12 ≤ (Recon.dropSpaceHyphen value).length)
    (h19 : (Recon.dropSpaceHyphen value).length ≤ 19)
    (hdig : (Recon.dropSpaceHyphen value).all Char.isDigit = true) :
    Recon.sanitize_pan_masked value =
      (Recon.dropSpaceHyphen value).take 6
        ++ List.replicate (max 2 ((Recon.dropSpaceHyphen value).length - 10)) '*'
        ++ (Recon.dropSpaceHyphen value).drop ((Recon.dropSpaceHyphen value).length - 4) ∧
    2 ≤ max 2 ((Recon.dropSpaceHyphen value).length - 10) ∧
    ((Recon.sanitize_pan_masked value).take 6).length = 6 ∧
    ((Recon.sanitize_pan_masked value).take 6).all Char.isDigit = true ∧
    ((Recon.sanitize_pan_masked value).drop
        ((Recon.sanitize_pan_masked value).length - 4)).length = 4 ∧
    ((Recon.sanitize_pan_masked value).drop
        ((Recon.sanitize_pan_masked value).length - 4)).all Char.isDigit = true ∧
    (∀ i : ℕ, 6 ≤ i → i + 4 < (Recon.sanitize_pan_masked value).length →
      (Recon.sanitize_pan_masked value).getD i ' ' = '*') := by
  have hcomp : Recon.dropSpaceHyphen (Recon.pyStripL value) = Recon.dropSpaceHyphen value :=
    dropSpaceHyphen_pyStripL value
  set S := Recon.dropSpaceHyphen value with hS
  set m := max 2 (S.length - 10) with hm
  have hSne : S ≠ [] := by
    intro h0
    rw [h0] at h12
    simp at h12
  have hraw : ¬ (Recon.pyStripL value = []) := by
    intro h0
    apply hSne
    rw [← hcomp, h0]
    rfl
  have hmain : Recon.sanitize_pan_masked value =
      S.take 6 ++ List.replicate m '*' ++ S.drop (S.length - 4) := by
    simp only [Recon.sanitize_pan_masked]
    rw [if_neg hraw, hcomp, if_pos ⟨h12, h19, hdig⟩, ← hm]
  have hlen6 : (S.take 6).length = 6 := by
    rw [List.length_take]
    omega
  have hlen4 : (S.drop (S.length - 4)).length = 4 := by
    rw [List.length_drop]
    omega
  have houtlen : (Recon.sanitize_pan_masked value).length = 6 + m + 4 := by
    rw [hmain]
    simp [List.length_append, hlen6, hlen4]
    omega
  have htake : (Recon.sanitize_pan_masked value).take 6 = S.take 6 := by
    rw [hmain, List.append_assoc]
    have h := List.take_left (S.take 6) (List.replicate m '*' ++ S.drop (S.length - 4))
    rw [hlen6] at h
    exact h
  have hdrop : (Recon.sanitize_pan_masked value).drop
      ((Recon.sanitize_pan_masked value).length - 4) = S.drop (S.length - 4) := by
    rw [houtlen, hmain]
    have h := List.drop_left (S.take 6 ++ List.replicate m '*') (S.drop (S.length - 4))
    have hlen : (S.take 6 ++ List.replicate m '*').length = 6 + m := by
      simp [List.length_append, hlen6]
    rw [hlen] at h
    have : 6 + m + 4 - 4 = 6 + m := by omega
    rw [this]
    exact h
  refine ⟨hmain, le_max_left _ _, ?_, ?_, ?_, ?_, ?_⟩
  · rw [htake, hlen6]
  · rw [htake, List.all_eq_true]
    intro c hc
    exact (List.all_eq_true.mp hdig) c (List.take_subset 6 S hc)
  · rw [hdrop, hlen4]
  · rw [hdrop, List.all_eq_true]
    intro c hc
    exact (List.all_eq_true.mp hdig) c (List.drop_subset _ S hc)
  · intro i h6 hi4
    rw [houtlen] at hi4
    rw [hmain, List.append_assoc]
    have h1 : (S.take 6).length ≤ i := by rw [hlen6]; omega
    rw [List.getD_append_right _ _ _ _ h1, hlen6]
    have h2 : i - 6 < (List.replicate m '*').length := by
      rw [List.length_replicate]
      omega
    rw [List.getD_append _ _ _ _ h2]
    exact getD_replicate_lt '*' ' ' m (i - 6) (by rw [List.length_replicate] at h2; exact h2)

/-- Witness for C5 at the PAN "4000 1234-1234 1234" (16 digits once compacted). -/
theorem C5_pan_sanitization_witness :
    (12 ≤ (Recon.dropSpaceHyphen ("4000 1234-1234 1234".toList)).length ∧
      (Recon.dropSpaceHyphen ("4000 1234-1234 1234".toList)).length ≤ 19 ∧
      (Recon.dropSpaceHyphen ("4000 1234-1234 1234".toList)).all Char.isDigit = true) ∧
    Recon.sanitize_pan_masked ("4000 1234-1234 1234".toList) =
      (Recon.dropSpaceHyphen ("4000 1234-1234 1234".toList)).take 6
        ++ List.replicate
            (max 2 ((Recon.dropSpaceHyphen ("4000 1234-1234 1234".toList)).length - 10)) '*'
        ++ (Recon.dropSpaceHyphen ("4000 1234-1234 1234".toList)).drop
            ((Recon.dropSpaceHyphen ("4000 1234-1234 1234".toList)).length - 4) :=
  ⟨⟨by decide, by decide, by decide⟩,
    (C5_pan_sanitization ("4000 1234-1234 1234".toList)
      (by decide) (by decide) (by decide)).1⟩

/-- C1: the claim (staged match/exception inserts are rolled back on a step-5
failure, leaving zero rows for the run) is violated by the code: the `except`
handler commits without rollback.  With two staged matches and a failure
while staging the second insert, the run ends FAILED with finishedAt set and
exactly one FAILURE `MATCH_RUN_EXECUTE` audit — but one `MatchResult` row for
the run is committed, not zero.  This is the scenario of the repo's own test
`test_run_failure_rolls_back_partial_results`, which asserts a zero count. -/
theorem C1_failed_run_commits_staged_inserts :
    Recon.RunOrch.failedRunScenario.2 = true ∧
    (Recon.RunOrch.failedRunScenario.1.match_runs.filter (fun r => r.run_id = "R" ∧
      r.status = "FAILED" ∧ r.finished_at ≠ none)).length = 1 ∧
    (Recon.RunOrch.failedRunScenario.1.audit_events.filter
      (fun a => a.action = "MATCH_RUN_EXECUTE")).length = 1 ∧
    (Recon.RunOrch.failedRunScenario.1.audit_events.filter
      (fun a => a.action = "MATCH_RUN_EXECUTE" ∧ a.result = "FAILURE")).length = 1 ∧
    (Recon.RunOrch.failedRunScenario.1.match_results.filter
      (fun pr => pr.1 = "R")).length = 1 ∧
    (Recon.RunOrch.failedRunScenario.1.exception_cases.filter
      (fun pr => pr.1 = "R")).length = 0 := by
  refine ⟨?_, ?_, ?_, ?_, ?_, ?_⟩ <;> with_unfolding_all rfl

/-- C2 counterexample: a put payload with `amount_tolerance = -1` (present
but negative) is not rejected — `put_ruleset` succeeds and inserts the new
version as the active row, with the negative tolerance stored. -/
theorem C2_put_accepts_negative_tolerance :
    Recon.Rules.put_ruleset true "vAUTO" "t0" [Recon.Rules.default_ruleset_row "t0"]
        ⟨some "v2", some (-1), some 1, some (1/2)⟩ =
      .ok ([{ version := "v1", is_active := false, amount_tolerance := 2,
              date_window_days := 1, score_threshold := 3/4, created_at := "t0" },
            { version := "v2", is_active := true, amount_tolerance := -1,
              date_window_days := 1, score_threshold := 1/2, created_at := "t0" }], "v2") := by
  with_unfolding_all rfl

/-- C2 (amended): `put_ruleset` raises a validation error exactly when one of
`amount_tolerance`, `date_window_days`, `score_threshold` is absent from the
payload; present values are never range-checked (out-of-range values are
inserted and activated, see the counterexample). -/
theorem C2_put_validates_presence_only (nowVersion nowTs : String)
    (db : List Recon.Rules.RulesetRow) (p : Recon.Rules.PutPayload) :
    (∃ msg, Recon.Rules.put_ruleset true nowVersion nowTs db p =
        .error (Recon.AppError.validation msg)) ↔
      (p.amount_tolerance = none ∨ p.date_window_days = none ∨ p.score_threshold = none) := by
  constructor
  · rintro ⟨msg, hmsg⟩
    by_contra hnone
    push_neg at hnone
    obtain ⟨h1, h2, h3⟩ := hnone
    simp [Recon.Rules.put_ruleset, h1, h2, h3] at hmsg
  · intro h
    rcases hat : p.amount_tolerance with _ | at0
    · exact ⟨"amount_tolerance is required", by simp [Recon.Rules.put_ruleset, hat]⟩
    · rcases hdw : p.date_window_days with _ | dw0
      · exact ⟨"date_window_days is required", by simp [Recon.Rules.put_ruleset, hat, hdw]⟩
      · rcases hst : p.score_threshold with _ | st0
        · exact ⟨"score_threshold is required", by simp [Recon.Rules.put_ruleset, hat, hdw, hst]⟩
        · rw [hat, hdw, hst] at h
          simp at h

/-- C8: both writers of the `rulesets` table preserve the singleton-active
invariant: `_ensure_default_ruleset` keeps `count(active) ≤ 1` (it is a no-op
when an active row exists, inserts the single default row when the table has
none, and any primary-key conflict aborts without committing), and every
successful `put_ruleset` — including one that reuses an existing version
string via `INSERT OR REPLACE` — leaves exactly one active row. -/
theorem C8_active_ruleset_singleton (nowTs nowVersion : String)
    (db : List Recon.Rules.RulesetRow) (h : Recon.Rules.countActive db ≤ 1) :
    (∀ db', Recon.Rules.ensure_default_ruleset nowTs db = .ok db' →
      Recon.Rules.countActive db' ≤ 1) ∧
    (∀ (p : Recon.Rules.PutPayload) (db' : List Recon.Rules.RulesetRow) (v : String),
      Recon.Rules.put_ruleset true nowVersion nowTs db p = .ok (db', v) →
      Recon.Rules.countActive db' = 1) := by
  constructor
  · intro db' hdb'
    by_cases hact : db.any (fun r => r.is_active) = true
    · simp [Recon.Rules.ensure_default_ruleset, hact] at hdb'
      rw [← hdb']
      exact h
    · by_cases hv1 : db.any (fun r => r.version = "v1") = true
      · simp [Recon.Rules.ensure_default_ruleset, hact, hv1] at hdb'
      · simp [Recon.Rules.ensure_default_ruleset, hact, hv1] at hdb'
        rw [← hdb']
        unfold Recon.Rules.countActive
        rw [List.countP_append]
        have hz : db.countP (fun r => r.is_active) = 0 := by
          rw [List.countP_eq_zero]
          intro a ha
          have := List.any_eq_false.mp (Bool.eq_false_iff.mpr hact) a ha
          simpa using this
        rw [hz]
        simp [Recon.Rules.default_ruleset_row]
  · intro p db' v hput
    rcases hat : p.amount_tolerance with _ | at0
    · simp [Recon.Rules.put_ruleset, hat] at hput
    rcases hdw : p.date_window_days with _ | dw0
    · simp [Recon.Rules.put_ruleset, hat, hdw] at hput
    rcases hst : p.score_threshold with _ | st0
    · simp [Recon.Rules.put_ruleset, hat, hdw, hst] at hput
    simp [Recon.Rules.put_ruleset, hat, hdw, hst] at hput
    obtain ⟨hdb', hv⟩ := hput
    rw [← hdb']
    unfold Recon.Rules.countActive
    rw [List.countP_append, List.countP_eq_zero.mpr, Nat.zero_add]
    · simp
    · intro r hr
      rw [List.mem_filter] at hr
      obtain ⟨hrm, -⟩ := hr
      rw [List.mem_map] at hrm
      obtain ⟨r0, -, hr0⟩ := hrm
      rw [← hr0]
      simp

/-- Witness for C8 on a table holding the single active default row, with a
put payload that reuses the version string "v1". -/
theorem C8_active_ruleset_singleton_witness :
    Recon.Rules.countActive [Recon.Rules.default_ruleset_row "t0"] ≤ 1 ∧
    (∀ (p : Recon.Rules.PutPayload) (db' : List Recon.Rules.RulesetRow) (v : String),
      Recon.Rules.put_ruleset true "vAUTO" "t1" [Recon.Rules.default_ruleset_row "t0"] p =
        .ok (db', v) →
      Recon.Rules.countActive db' = 1) :=
  ⟨by decide,
    (C8_active_ruleset_singleton "t1" "vAUTO" [Recon.Rules.default_ruleset_row "t0"]
      (by decide)).2⟩

lemma insertTxns_files_audit (hashFn : String → String) (genId : ℕ → String)
    (src bd : String) :
    ∀ (recs : List Recon.Ingest.RecPayload) (db db' : Recon.Ingest.IngestDb),
      Recon.Ingest.insertTxns hashFn genId src bd db recs = .ok db' →
      db'.ingest_files = db.ingest_files ∧ db'.audit_events = db.audit_events := by
  intro recs
  induction recs with
  | nil =>
    intro db db' h
    simp [Recon.Ingest.insertTxns] at h
    rw [← h]
    exact ⟨rfl, rfl⟩
  | cons r rest ih =>
    intro db db' h
    rw [Recon.Ingest.insertTxns] at h
    by_cases hmiss : Recon.Ingest.recMissing r = true
    · simp [Recon.Ingest.insert_txn, hmiss] at h
    · simp only [Recon.Ingest.insert_txn, hmiss, Bool.false_eq_true, if_false] at h
      have := ih _ _ h
      simpa using this

lemma insertTxns_error_of_bad (hashFn : String → String) (genId : ℕ → String)
    (src bd : String) :
    ∀ (recs : List Recon.Ingest.RecPayload) (db : Recon.Ingest.IngestDb),
      (∃ rec ∈ recs, Recon.Ingest.recMissing rec = true) →
      Recon.Ingest.insertTxns hashFn genId src bd db recs =
        .error (Recon.AppError.validation "Transaction missing required fields") := by
  intro recs
  induction recs with
  | nil =>
    intro db h
    obtain ⟨rec, hmem, -⟩ := h
    exact absurd hmem (List.not_mem_nil rec)
  | cons r rest ih =>
    intro db h
    rw [Recon.Ingest.insertTxns]
    by_cases hmiss : Recon.Ingest.recMissing r = true
    · simp [Recon.Ingest.insert_txn, hmiss]
    · simp only [Recon.Ingest.insert_txn, hmiss, Bool.false_eq_true, if_false]
      apply ih
      obtain ⟨rec, hmem, hbad⟩ := h
      rcases List.mem_cons.mp hmem with hr | hr
      · rw [hr] at hbad
        exact absurd hbad hmiss
      · exact ⟨rec, hr, hbad⟩

/-- C6: ingest is idempotent on (source, businessDate, checksum).  If a first
call succeeds with `duplicate = false`, it inserted exactly one IngestFile
and one SUCCESS audit; replaying the same payload returns the first call's
file id with `duplicate = true`, leaves `ingest_files` and `txns` untouched,
and appends exactly one further audit event with result DUPLICATE. -/
theorem C6_ingest_idempotent (hashFn : String → String) (genId : ℕ → String)
    (now1 now2 actor ip : String) (db0 db1 : Recon.Ingest.IngestDb)
    (p : Recon.Ingest.IngestPayload) (r1 : Recon.Ingest.IngestResult)
    (h1 : Recon.Ingest.ingest_file hashFn genId now1 true actor ip db0 p = .ok (db1, r1))
    (h2 : r1.duplicate = false) :
    db1.ingest_files.length = db0.ingest_files.length + 1 ∧
    (∃ a1 : Recon.AuditRow, db1.audit_events = db0.audit_events ++ [a1] ∧
      a1.action = "INGEST_REGISTER" ∧ a1.result = "SUCCESS") ∧
    (∃ db2 r2, Recon.Ingest.ingest_file hashFn genId now2 true actor ip db1 p = .ok (db2, r2) ∧
      r2.duplicate = true ∧ r2.file_id = r1.file_id ∧
      db2.ingest_files = db1.ingest_files ∧ db2.txns = db1.txns ∧
      ∃ a2 : Recon.AuditRow, db2.audit_events = db1.audit_events ++ [a2] ∧
        a2.action = "INGEST_REGISTER" ∧ a2.result = "DUPLICATE") := by
  set frow : Recon.Ingest.FileRow :=
    { file_id := genId db0.ctr, source_system := Recon.pyUpperS (Recon.pyStripS p.source),
      business_date := p.business_date, file_name := p.file_name,
      checksum_sha256 := p.checksum_sha256, parser_profile := p.parser_profile,
      received_at :=
        (match p.received_at with
         | some s => if s = "" then now1 else s
         | none => now1),
      status := "PARSED", record_count := p.records.length, created_by := actor }
    with hfrow
  rw [Recon.Ingest.ingest_file] at h1
  simp only [not_true_eq_false, if_false] at h1
  by_cases hreq : p.source = "" ∨ p.business_date = "" ∨ p.file_name = "" ∨
      p.checksum_sha256 = "" ∨ p.parser_profile = ""
  · rw [if_pos hreq] at h1
    exact absurd h1 (by simp)
  rw [if_neg hreq] at h1
  rcases hfind : db0.ingest_files.find? (fun f =>
      f.source_system = Recon.pyUpperS (Recon.pyStripS p.source) ∧
      f.business_date = p.business_date ∧ f.checksum_sha256 = p.checksum_sha256) with _ | f
  · rw [hfind] at h1
    rw [← hfrow] at h1
    rcases hins : Recon.Ingest.insertTxns hashFn genId (Recon.pyUpperS (Recon.pyStripS p.source))
        p.business_date
        { db0 with ingest_files := db0.ingest_files ++ [frow], ctr := db0.ctr + 1 }
        p.records with e | dbt
    · rw [hins] at h1
      exact absurd h1 (by simp)
    · rw [hins] at h1
      simp only [Except.ok.injEq, Prod.mk.injEq] at h1
      obtain ⟨hdb1, hr1⟩ := h1
      have hft := insertTxns_files_audit hashFn genId _ _ _ _ _ hins
      have hfiles : db1.ingest_files = db0.ingest_files ++ [frow] := by
        rw [← hdb1]
        exact hft.1
      have haud : db1.audit_events = db0.audit_events ++
          [{ event_at := now1, actor_login := actor, source_ip := ip,
             object_type := "ingest_file", object_id := some (genId db0.ctr),
             action := "INGEST_REGISTER", result := "SUCCESS",
             details := "records=" ++ toString p.records.length }] := by
        rw [← hdb1]
        simp only []
        rw [hft.2]
      refine ⟨?_, ⟨_, haud, rfl, rfl⟩, ?_⟩
      · rw [hfiles]
        simp
      · rw [Recon.Ingest.ingest_file]
        simp only [not_true_eq_false, if_false]
        rw [if_neg hreq, hfiles, List.find?_append, hfind]
        have hfr : List.find? (fun (f : Recon.Ingest.FileRow) =>
            decide (f.source_system = Recon.pyUpperS (Recon.pyStripS p.source) ∧
              f.business_date = p.business_date ∧ f.checksum_sha256 = p.checksum_sha256))
            [frow] = some frow := by
          rw [hfrow]
          simp
        rw [Option.none_or, hfr]
        refine ⟨_, _, rfl, rfl, ?_, rfl, rfl, ⟨_, rfl, rfl, rfl⟩⟩
        rw [← hr1, hfrow]
  · rw [hfind] at h1
    simp only [Except.ok.injEq, Prod.mk.injEq] at h1
    obtain ⟨-, hr1⟩ := h1
    rw [← hr1] at h2
    exact absurd h2 (by simp)

/-- Witness for C6: a concrete one-record WAY4 ingest succeeds with
`duplicate = false`, and the theorem's conclusion holds for replaying it. -/
theorem C6_ingest_idempotent_witness :
    (Recon.Ingest.ingest_file (fun s => s) (fun n => toString n) "t1" true "admin" "ip"
        ⟨[], [], [], 0⟩
        ⟨"WAY4_EXPORT", "2026-02-22", "way4.json", "c1", "WAY4_v1", none,
          [⟨some "123", some "A123", some "4000123412341234", some 100, some "KZT",
            some "2026-02-22T01:00:00+06:00", some "PURCHASE", some "M1", some "ECOM",
            some "BOOKED", none, none⟩]⟩ =
      .ok (⟨[⟨"0", "WAY4_EXPORT", "2026-02-22", "way4.json", "c1", "WAY4_v1", "t1",
              "PARSED", 1, "admin"⟩],
            [⟨"1", "WAY4_EXPORT", "2026-02-22", "123", some "A123", "400012******1234",
              "400012******1234", 100, "KZT", "2026-02-22T01:00:00+06:00", "PURCHASE",
              "M1", "ECOM", "BOOKED", 0, "KZT"⟩],
            [⟨"t1", "admin", "ip", "ingest_file", some "0", "INGEST_REGISTER", "SUCCESS",
              "records=1"⟩], 2⟩,
           ⟨"0", "PARSED", 1, false⟩) ∧
      Recon.Ingest.IngestResult.duplicate ⟨"0", "PARSED", 1, false⟩ = false) ∧
    (⟨[⟨"0", "WAY4_EXPORT", "2026-02-22", "way4.json", "c1", "WAY4_v1", "t1",
        "PARSED", 1, "admin"⟩],
      [⟨"1", "WAY4_EXPORT", "2026-02-22", "123", some "A123", "400012******1234",
        "400012******1234", 100, "KZT", "2026-02-22T01:00:00+06:00", "PURCHASE",
        "M1", "ECOM", "BOOKED", 0, "KZT"⟩],
      [⟨"t1", "admin", "ip", "ingest_file", some "0", "INGEST_REGISTER", "SUCCESS",
        "records=1"⟩], 2⟩ : Recon.Ingest.IngestDb).ingest_files.length =
      (⟨[], [], [], 0⟩ : Recon.Ingest.IngestDb).ingest_files.length + 1 :=
  ⟨⟨by with_unfolding_all rfl, rfl⟩,
    (C6_ingest_idempotent (fun s => s) (fun n => toString n) "t1" "t2" "admin" "ip"
      ⟨[], [], [], 0⟩ _
      ⟨"WAY4_EXPORT", "2026-02-22", "way4.json", "c1", "WAY4_v1", none,
        [⟨some "123", some "A123", some "4000123412341234", some 100, some "KZT",
          some "2026-02-22T01:00:00+06:00", some "PURCHASE", some "M1", some "ECOM",
          some "BOOKED", none, none⟩]⟩
      ⟨"0", "PARSED", 1, false⟩ (by with_unfolding_all rfl) rfl).1⟩

/-- C7 counterexample: when an IngestFile with the same (source, businessDate,
checksum) already exists, `ingest_file` takes the duplicate fast-path and
returns `duplicate = true` without ever validating the records — here the
single record has no `rrn` (so `recMissing` holds), yet no validation error
is raised. -/
theorem C7_duplicate_bypasses_record_validation :
    Recon.Ingest.recMissing
      ⟨none, none, none, some 10, some "KZT", some "t", some "PURCHASE", some "M1",
        some "ECOM", some "BOOKED", none, none⟩ = true ∧
    Recon.Ingest.ingest_file (fun s => s) (fun n => toString n) "now" true "admin" "ip"
      ⟨[⟨"F0", "WAY4_EXPORT", "2026-02-22", "old.json", "c1", "WAY4_v1", "t0",
         "PARSED", 3, "admin"⟩], [], [], 5⟩
      ⟨"WAY4_EXPORT", "2026-02-22", "f.json", "c1", "WAY4_v1", none,
        [⟨none, none, none, some 10, some "KZT", some "t", some "PURCHASE", some "M1",
          some "ECOM", some "BOOKED", none, none⟩]⟩ =
      .ok (⟨[⟨"F0", "WAY4_EXPORT", "2026-02-22", "old.json", "c1", "WAY4_v1", "t0",
              "PARSED", 3, "admin"⟩], [],
            [⟨"now", "admin", "ip", "ingest_file", some "F0", "INGEST_REGISTER",
              "DUPLICATE", "Idempotent duplicate request"⟩], 5⟩,
           ⟨"F0", "PARSED", 3, true⟩) :=
  ⟨rfl, by with_unfolding_all rfl⟩

/-- C7 (amended): provided no IngestFile with the same (source, businessDate,
checksum) key already exists — otherwise the duplicate fast-path returns
`duplicate = true` without looking at the records — an ingest payload with at
least one record missing any of rrn, amount, currency, txn_time, merchant_id,
channel_id makes `ingest_file` raise a validation error; the transaction
aborts, so no IngestFile row, no Txn row and no audit event are committed
(the model returns only the error, the caller's database is unchanged). -/
theorem C7_record_validation_aborts (hashFn : String → String) (genId : ℕ → String)
    (now actor ip : String) (db : Recon.Ingest.IngestDb) (p : Recon.Ingest.IngestPayload)
    (hnodup : db.ingest_files.find? (fun f =>
        f.source_system = Recon.pyUpperS (Recon.pyStripS p.source) ∧
        f.business_date = p.business_date ∧ f.checksum_sha256 = p.checksum_sha256) = none)
    (hbad : ∃ rec ∈ p.records, Recon.Ingest.recMissing rec = true) :
    ∃ msg, Recon.Ingest.ingest_file hashFn genId now true actor ip db p =
      .error (Recon.AppError.validation msg) := by
  rw [Recon.Ingest.ingest_file]
  simp only [not_true_eq_false, if_false]
  by_cases hreq : p.source = "" ∨ p.business_date = "" ∨ p.file_name = "" ∨
      p.checksum_sha256 = "" ∨ p.parser_profile = ""
  · exact ⟨"Missing required fields", by rw [if_pos hreq]⟩
  · rw [if_neg hreq, hnodup]
    refine ⟨"Transaction missing required fields", ?_⟩
    rw [insertTxns_error_of_bad hashFn genId _ _ _ _ hbad]

/-- Witness for C7 (amended) on an empty database and a payload whose only
record lacks `rrn`. -/
theorem C7_record_validation_aborts_witness :
    ((⟨[], [], [], 0⟩ : Recon.Ingest.IngestDb).ingest_files.find? (fun f =>
        f.source_system = Recon.pyUpperS (Recon.pyStripS "WAY4_EXPORT") ∧
        f.business_date = "2026-02-22" ∧ f.checksum_sha256 = "c1") = none ∧
      (∃ rec ∈ [(⟨none, none, none, some 10, some "KZT", some "t", some "PURCHASE",
          some "M1", some "ECOM", some "BOOKED", none, none⟩ : Recon.Ingest.RecPayload)],
        Recon.Ingest.recMissing rec = true)) ∧
    ∃ msg, Recon.Ingest.ingest_file (fun s => s) (fun n => toString n) "now" true "admin" "ip"
      ⟨[], [], [], 0⟩
      ⟨"WAY4_EXPORT", "2026-02-22", "f.json", "c1", "WAY4_v1", none,
        [⟨none, none, none, some 10, some "KZT", some "t", some "PURCHASE", some "M1",
          some "ECOM", some "BOOKED", none, none⟩]⟩ =
      .error (Recon.AppError.validation msg) :=
  ⟨⟨rfl, ⟨_, List.mem_singleton.mpr rfl, rfl⟩⟩,
    C7_record_validation_aborts (fun s => s) (fun n => toString n) "now" "admin" "ip"
      ⟨[], [], [], 0⟩
      ⟨"WAY4_EXPORT", "2026-02-22", "f.json", "c1", "WAY4_v1", none,
        [⟨none, none, none, some 10, some "KZT", some "t", some "PURCHASE", some "M1",
          some "ECOM", some "BOOKED", none, none⟩]⟩
      rfl ⟨_, List.mem_singleton.mpr rfl, rfl⟩⟩

lemma insertionSort_head_max (l : List (ℚ × Recon.Matching.Txn × Recon.Matching.ScoreDetails))
    (top : ℚ × Recon.Matching.Txn × Recon.Matching.ScoreDetails)
    (rest : List (ℚ × Recon.Matching.Txn × Recon.Matching.ScoreDetails))
    (hsort : List.insertionSort Recon.Matching.scoreRel l = top :: rest) :
    ∀ x ∈ l, x.1 ≤ top.1 := by
  intro x hx
  have hx' : x ∈ List.insertionSort Recon.Matching.scoreRel l :=
    (List.perm_insertionSort Recon.Matching.scoreRel l).mem_iff.mpr hx
  rw [hsort] at hx'
  rcases List.mem_cons.mp hx' with hx' | hx'
  · rw [hx']
  · have hs := List.sorted_insertionSort Recon.Matching.scoreRel l
    rw [hsort] at hs
    exact (List.sorted_cons.mp hs).1 x hx'

/-- C3: in the fuzzy pass, for a left row with a non-empty surviving candidate
list, the top of the stable descending sort dominates every score, the
"second" score falls back to −1 when there is exactly one candidate, a match
is emitted iff the top score reaches the threshold and beats the second by
strictly more than 0.05, and the emitted record is MATCHED exactly when the
two amounts are equal (else PARTIAL_MATCH) with reason FUZZY_SCORE. -/
theorem C3_fuzzy_gate (visa : List Recon.Matching.Txn) (rules : Recon.Matching.RuleSet)
    (st : Recon.Matching.EngineState) (w : Recon.Matching.Txn)
    (h : Recon.Matching.fuzzyCandidates visa rules st w ≠ []) :
    ∃ top rest,
      List.insertionSort Recon.Matching.scoreRel
        (Recon.Matching.scoredList rules w (Recon.Matching.fuzzyCandidates visa rules st w)) =
        top :: rest ∧
      (∀ x ∈ Recon.Matching.scoredList rules w (Recon.Matching.fuzzyCandidates visa rules st w),
        x.1 ≤ top.1) ∧
      ((Recon.Matching.fuzzyCandidates visa rules st w).length = 1 →
        Recon.Matching.secondScore rest = -1) ∧
      ((Recon.Matching.pass3Step visa rules st w).match_records ≠ st.match_records ↔
        (rules.score_threshold ≤ top.1 ∧
          5/100 < top.1 - Recon.Matching.secondScore rest)) ∧
      ((rules.score_threshold ≤ top.1 ∧ 5/100 < top.1 - Recon.Matching.secondScore rest) →
        (Recon.Matching.pass3Step visa rules st w).match_records = st.match_records ++
          [{ left_txn_id := w.txn_id
             right_txn_id := some top.2.1.txn_id
             match_type := if w.amount = top.2.1.amount then "MATCHED" else "PARTIAL_MATCH"
             score := Recon.Matching.roundTo 4 top.1
             reason_code := "FUZZY_SCORE"
             explain := Recon.Matching.Explain.fuzzy top.2.2 }]) := by
  have hlen : (Recon.Matching.scoredList rules w
      (Recon.Matching.fuzzyCandidates visa rules st w)).length =
      (Recon.Matching.fuzzyCandidates visa rules st w).length := by
    simp [Recon.Matching.scoredList]
  rcases hsort : List.insertionSort Recon.Matching.scoreRel
      (Recon.Matching.scoredList rules w (Recon.Matching.fuzzyCandidates visa rules st w))
      with _ | ⟨top, rest⟩
  · exfalso
    have hplen := (List.perm_insertionSort Recon.Matching.scoreRel
      (Recon.Matching.scoredList rules w
        (Recon.Matching.fuzzyCandidates visa rules st w))).length_eq
    rw [hsort] at hplen
    simp only [List.length_nil] at hplen
    rw [hlen] at hplen
    exact h (List.eq_nil_of_length_eq_zero hplen.symm)
  · have hstep : Recon.Matching.pass3Step visa rules st w =
        if rules.score_threshold ≤ top.1 ∧
            5/100 < top.1 - Recon.Matching.secondScore rest then
          Recon.Matching.record_match st w (some top.2.1)
            (if 0 < |w.amount - top.2.1.amount| then "PARTIAL_MATCH" else "MATCHED")
            top.1 "FUZZY_SCORE" (Recon.Matching.Explain.fuzzy top.2.2)
        else st := by
      simp only [Recon.Matching.pass3Step]
      rw [hsort]
    refine ⟨top, rest, rfl, insertionSort_head_max _ top rest hsort, ?_, ?_, ?_⟩
    · intro h1
      have hplen := (List.perm_insertionSort Recon.Matching.scoreRel
        (Recon.Matching.scoredList rules w
          (Recon.Matching.fuzzyCandidates visa rules st w))).length_eq
      rw [hsort, hlen, h1] at hplen
      simp only [List.length_cons] at hplen
      have : rest = [] := List.eq_nil_of_length_eq_zero (by omega)
      rw [this]
      rfl
    · constructor
      · intro hne
        by_contra hgate
        rw [hstep, if_neg hgate] at hne
        exact hne rfl
      · intro hgate
        rw [hstep, if_pos hgate]
        intro heq
        have := congrArg List.length heq
        simp [Recon.Matching.record_match] at this
    · intro hgate
      rw [hstep, if_pos hgate]
      by_cases heq : w.amount = top.2.1.amount
      · simp [Recon.Matching.record_match, heq]
      · have habs : 0 < |w.amount - top.2.1.amount| :=
          abs_pos.mpr (sub_ne_zero.mpr heq)
        simp [Recon.Matching.record_match, heq, habs]

/-- Witness for C3: one candidate sharing rrn/currency inside the date window,
equal amounts, so the gate passes and a MATCHED record is emitted. -/
theorem C3_fuzzy_gate_witness :
    Recon.Matching.fuzzyCandidates
      [⟨"V1", "VISA_EXPORT", "2026-02-22", "R", none, 50, "KZT", 0, "CLEARING", "M1", "POS"⟩]
      ⟨"v1", 2, 1, 3/4⟩
      ⟨[("W1", ⟨"W1", "WAY4_EXPORT", "2026-02-22", "R", none, 50, "KZT", 0, "PURCHASE", "M1", "POS"⟩)],
       [("V1", ⟨"V1", "VISA_EXPORT", "2026-02-22", "R", none, 50, "KZT", 0, "CLEARING", "M1", "POS"⟩)],
       [], []⟩
      ⟨"W1", "WAY4_EXPORT", "2026-02-22", "R", none, 50, "KZT", 0, "PURCHASE", "M1", "POS"⟩ ≠ [] ∧
    ∃ top rest,
      List.insertionSort Recon.Matching.scoreRel
        (Recon.Matching.scoredList ⟨"v1", 2, 1, 3/4⟩
          ⟨"W1", "WAY4_EXPORT", "2026-02-22", "R", none, 50, "KZT", 0, "PURCHASE", "M1", "POS"⟩
          (Recon.Matching.fuzzyCandidates
            [⟨"V1", "VISA_EXPORT", "2026-02-22", "R", none, 50, "KZT", 0, "CLEARING", "M1", "POS"⟩]
            ⟨"v1", 2, 1, 3/4⟩
            ⟨[("W1", ⟨"W1", "WAY4_EXPORT", "2026-02-22", "R", none, 50, "KZT", 0, "PURCHASE", "M1", "POS"⟩)],
              [("V1", ⟨"V1", "VISA_EXPORT", "2026-02-22", "R", none, 50, "KZT", 0, "CLEARING", "M1", "POS"⟩)],
              [], []⟩
            ⟨"W1", "WAY4_EXPORT", "2026-02-22", "R", none, 50, "KZT", 0, "PURCHASE", "M1", "POS"⟩)) =
        top :: rest ∧
      (∀ x ∈ Recon.Matching.scoredList ⟨"v1", 2, 1, 3/4⟩
          ⟨"W1", "WAY4_EXPORT", "2026-02-22", "R", none, 50, "KZT", 0, "PURCHASE", "M1", "POS"⟩
          (Recon.Matching.fuzzyCandidates
            [⟨"V1", "VISA_EXPORT", "2026-02-22", "R", none, 50, "KZT", 0, "CLEARING", "M1", "POS"⟩]
            ⟨"v1", 2, 1, 3/4⟩
            ⟨[("W1", ⟨"W1", "WAY4_EXPORT", "2026-02-22", "R", none, 50, "KZT", 0, "PURCHASE", "M1", "POS"⟩)],
              [("V1", ⟨"V1", "VISA_EXPORT", "2026-02-22", "R", none, 50, "KZT", 0, "CLEARING", "M1", "POS"⟩)],
              [], []⟩
            ⟨"W1", "WAY4_EXPORT", "2026-02-22", "R", none, 50, "KZT", 0, "PURCHASE", "M1", "POS"⟩),
        x.1 ≤ top.1) ∧
      ((Recon.Matching.fuzzyCandidates
          [⟨"V1", "VISA_EXPORT", "2026-02-22", "R", none, 50, "KZT", 0, "CLEARING", "M1", "POS"⟩]
          ⟨"v1", 2, 1, 3/4⟩
          ⟨[("W1", ⟨"W1", "WAY4_EXPORT", "2026-02-22", "R", none, 50, "KZT", 0, "PURCHASE", "M1", "POS"⟩)],
            [("V1", ⟨"V1", "VISA_EXPORT", "2026-02-22", "R", none, 50, "KZT", 0, "CLEARING", "M1", "POS"⟩)],
            [], []⟩
          ⟨"W1", "WAY4_EXPORT", "2026-02-22", "R", none, 50, "KZT", 0, "PURCHASE", "M1", "POS"⟩).length = 1 →
        Recon.Matching.secondScore rest = -1) ∧
      ((Recon.Matching.pass3Step
          [⟨"V1", "VISA_EXPORT", "2026-02-22", "R", none, 50, "KZT", 0, "CLEARING", "M1", "POS"⟩]
          ⟨"v1", 2, 1, 3/4⟩
          ⟨[("W1", ⟨"W1", "WAY4_EXPORT", "2026-02-22", "R", none, 50, "KZT", 0, "PURCHASE", "M1", "POS"⟩)],
            [("V1", ⟨"V1", "VISA_EXPORT", "2026-02-22", "R", none, 50, "KZT", 0, "CLEARING", "M1", "POS"⟩)],
            [], []⟩
          ⟨"W1", "WAY4_EXPORT", "2026-02-22", "R", none, 50, "KZT", 0, "PURCHASE", "M1", "POS"⟩).match_records ≠
        ([] : List Recon.Matching.MatchRec) ↔
        ((3/4 : ℚ) ≤ top.1 ∧ 5/100 < top.1 - Recon.Matching.secondScore rest)) ∧
      (((3/4 : ℚ) ≤ top.1 ∧ 5/100 < top.1 - Recon.Matching.secondScore rest) →
        (Recon.Matching.pass3Step
          [⟨"V1", "VISA_EXPORT", "2026-02-22", "R", none, 50, "KZT", 0, "CLEARING", "M1", "POS"⟩]
          ⟨"v1", 2, 1, 3/4⟩
          ⟨[("W1", ⟨"W1", "WAY4_EXPORT", "2026-02-22", "R", none, 50, "KZT", 0, "PURCHASE", "M1", "POS"⟩)],
            [("V1", ⟨"V1", "VISA_EXPORT", "2026-02-22", "R", none, 50, "KZT", 0, "CLEARING", "M1", "POS"⟩)],
            [], []⟩
          ⟨"W1", "WAY4_EXPORT", "2026-02-22", "R", none, 50, "KZT", 0, "PURCHASE", "M1", "POS"⟩).match_records =
          ([] : List Recon.Matching.MatchRec) ++
          [{ left_txn_id := "W1"
             right_txn_id := some top.2.1.txn_id
             match_type := if (50 : ℚ) = top.2.1.amount then "MATCHED" else "PARTIAL_MATCH"
             score := Recon.Matching.roundTo 4 top.1
             reason_code := "FUZZY_SCORE"
             explain := Recon.Matching.Explain.fuzzy top.2.2 }]) := by
  have hne : Recon.Matching.fuzzyCandidates
      [⟨"V1", "VISA_EXPORT", "2026-02-22", "R", none, 50, "KZT", 0, "CLEARING", "M1", "POS"⟩]
      ⟨"v1", 2, 1, 3/4⟩
      ⟨[("W1", ⟨"W1", "WAY4_EXPORT", "2026-02-22", "R", none, 50, "KZT", 0, "PURCHASE", "M1", "POS"⟩)],
       [("V1", ⟨"V1", "VISA_EXPORT", "2026-02-22", "R", none, 50, "KZT", 0, "CLEARING", "M1", "POS"⟩)],
       [], []⟩
      ⟨"W1", "WAY4_EXPORT", "2026-02-22", "R", none, 50, "KZT", 0, "PURCHASE", "M1", "POS"⟩ =
      [⟨"V1", "VISA_EXPORT", "2026-02-22", "R", none, 50, "KZT", 0, "CLEARING", "M1", "POS"⟩] := by
    with_unfolding_all rfl
  refine ⟨by rw [hne]; simp, ?_⟩
  exact C3_fuzzy_gate _ _ _ _ (by rw [hne]; simp)

lemma find?_eq_some_split {α : Type} (p : α → Bool) :
    ∀ {l : List α} {x : α}, l.find? p = some x →
      p x = true ∧ ∃ l₁ l₂, l = l₁ ++ x :: l₂ ∧ ∀ y ∈ l₁, p y = false := by
  intro l
  induction l with
  | nil => intro x h; simp at h
  | cons a t ih =>
    intro x h
    by_cases ha : p a = true
    · rw [List.find?_cons_of_pos t ha] at h
      obtain rfl : a = x := by injection h
      exact ⟨ha, [], t, rfl, by intro y hy; exact absurd hy (List.not_mem_nil y)⟩
    · rw [List.find?_cons_of_neg t ha] at h
      obtain ⟨hx, l₁, l₂, hsplit, hfail⟩ := ih h
      refine ⟨hx, a :: l₁, l₂, by rw [hsplit]; rfl, ?_⟩
      intro y hy
      rcases List.mem_cons.mp hy with rfl | hy
      · exact Bool.eq_false_iff.mpr ha
      · exact hfail y hy

lemma mem_combinations_length {α : Type} :
    ∀ (n : ℕ) (l : List α) (c : List α), c ∈ Recon.Matching.combinations n l → c.length = n
  | 0, l, c, h => by
    simp [Recon.Matching.combinations] at h
    rw [h]
    rfl
  | n + 1, [], c, h => by
    simp [Recon.Matching.combinations] at h
  | n + 1, x :: xs, c, h => by
    rw [Recon.Matching.combinations] at h
    rcases List.mem_append.mp h with h1 | h1
    · obtain ⟨c', hc', rfl⟩ := List.mem_map.mp h1
      simp [mem_combinations_length n xs c' hc']
    · exact mem_combinations_length (n + 1) xs c h1

lemma mem_combinations_sublist {α : Type} :
    ∀ (n : ℕ) (l : List α) (c : List α), c ∈ Recon.Matching.combinations n l → c.Sublist l
  | 0, l, c, h => by
    simp [Recon.Matching.combinations] at h
    rw [h]
    exact List.nil_sublist l
  | n + 1, [], c, h => by
    simp [Recon.Matching.combinations] at h
  | n + 1, x :: xs, c, h => by
    rw [Recon.Matching.combinations] at h
    rcases List.mem_append.mp h with h1 | h1
    · obtain ⟨c', hc', rfl⟩ := List.mem_map.mp h1
      exact List.Sublist.cons₂ x (mem_combinations_sublist n xs c' hc')
    · exact List.Sublist.cons x (mem_combinations_sublist (n + 1) xs c h1)

lemma dmem_dpop_self (d : Recon.Matching.Dict) (k : String) :
    Recon.Matching.dmem (Recon.Matching.dpop d k) k = false := by
  rw [Recon.Matching.dmem, Recon.Matching.dpop]
  rw [List.any_eq_false]
  intro p hp
  rw [List.mem_filter] at hp
  obtain ⟨-, hne⟩ := hp
  simpa using hne

lemma dpop_dpop (d : Recon.Matching.Dict) (k : String) :
    Recon.Matching.dpop (Recon.Matching.dpop d k) k = Recon.Matching.dpop d k := by
  rw [Recon.Matching.dpop, Recon.Matching.dpop, List.filter_filter]
  congr 1
  funext p
  rcases Bool.eq_false_or_eq_true (decide ¬ p.1 = k) with h | h <;> rw [h] <;> rfl

lemma otm_fold_match_records (w : Recon.Matching.Txn) (k : ℕ) :
    ∀ (combo : List Recon.Matching.Txn) (st : Recon.Matching.EngineState),
      (combo.foldl (fun st c =>
        Recon.Matching.record_match st w (some c) "PARTIAL_MATCH" (8/10)
          "ONE_TO_MANY_SUM_MATCH" (Recon.Matching.Explain.one_to_many k)) st).match_records =
      st.match_records ++ combo.map (fun c =>
        { left_txn_id := w.txn_id
          right_txn_id := some c.txn_id
          match_type := "PARTIAL_MATCH"
          score := Recon.Matching.roundTo 4 (8/10)
          reason_code := "ONE_TO_MANY_SUM_MATCH"
          explain := Recon.Matching.Explain.one_to_many k }) := by
  intro combo
  induction combo with
  | nil => intro st; simp
  | cons c t ih =>
    intro st
    rw [List.foldl_cons, ih]
    simp [Recon.Matching.record_match]

lemma otm_fold_way4_left (w : Recon.Matching.Txn) (k : ℕ) :
    ∀ (combo : List Recon.Matching.Txn) (st : Recon.Matching.EngineState),
      (combo.foldl (fun st c =>
        Recon.Matching.record_match st w (some c) "PARTIAL_MATCH" (8/10)
          "ONE_TO_MANY_SUM_MATCH" (Recon.Matching.Explain.one_to_many k)) st).way4_left =
      if combo.isEmpty then st.way4_left else Recon.Matching.dpop st.way4_left w.txn_id := by
  intro combo
  induction combo with
  | nil => intro st; rfl
  | cons c t ih =>
    intro st
    rw [List.foldl_cons, ih]
    by_cases ht : t.isEmpty
    · rw [if_pos ht]
      simp [List.isEmpty, Recon.Matching.record_match]
    · rw [if_neg ht]
      simp only [List.isEmpty_cons, if_false, Bool.false_eq_true]
      simp [Recon.Matching.record_match, dpop_dpop]

/-- C4: in the one-to-many pass, size-2 combinations are tried before size-3
ones (so a passing pair forces a size-2 winner), the winner is the first
passing combination in that enumeration, and on a win one PARTIAL_MATCH
record with score 0.8, reason ONE_TO_MANY_SUM_MATCH and the combo size in its
explain blob is emitted per member, while the left row is removed from the
working set (only the first member's `record_match` actually pops it; later
pops are no-ops). -/
theorem C4_one_to_many (rules : Recon.Matching.RuleSet) (st : Recon.Matching.EngineState)
    (w : Recon.Matching.Txn) (combo : List Recon.Matching.Txn)
    (hfind : (Recon.Matching.combinations 2 (Recon.Matching.otmCandidates st w) ++
        Recon.Matching.combinations 3 (Recon.Matching.otmCandidates st w)).find?
        (fun c => Recon.Matching.comboOk rules w c) = some combo) :
    Recon.Matching.comboOk rules w combo ∧
    (combo.length = 2 ∨ combo.length = 3) ∧
    ((∃ c2 ∈ Recon.Matching.combinations 2 (Recon.Matching.otmCandidates st w),
        Recon.Matching.comboOk rules w c2) → combo.length = 2) ∧
    (∃ pre post, Recon.Matching.combinations 2 (Recon.Matching.otmCandidates st w) ++
        Recon.Matching.combinations 3 (Recon.Matching.otmCandidates st w) =
        pre ++ combo :: post ∧ ∀ c ∈ pre, ¬ Recon.Matching.comboOk rules w c) ∧
    (Recon.Matching.pass4Step rules st w).match_records = st.match_records ++
      combo.map (fun c =>
        { left_txn_id := w.txn_id
          right_txn_id := some c.txn_id
          match_type := "PARTIAL_MATCH"
          score := Recon.Matching.roundTo 4 (8/10)
          reason_code := "ONE_TO_MANY_SUM_MATCH"
          explain := Recon.Matching.Explain.one_to_many combo.length }) ∧
    Recon.Matching.dmem (Recon.Matching.pass4Step rules st w).way4_left w.txn_id = false := by
  have hsplit := find?_eq_some_split _ hfind
  obtain ⟨hok, pre, post, henum, hpre⟩ := hsplit
  have hstep : Recon.Matching.pass4Step rules st w =
      combo.foldl (fun st c =>
        Recon.Matching.record_match st w (some c) "PARTIAL_MATCH" (8/10)
          "ONE_TO_MANY_SUM_MATCH" (Recon.Matching.Explain.one_to_many combo.length)) st := by
    simp only [Recon.Matching.pass4Step]
    rw [hfind]
  have hmem := List.mem_of_find?_eq_some hfind
  have hlen23 : combo.length = 2 ∨ combo.length = 3 := by
    rcases List.mem_append.mp hmem with h2 | h3
    · exact Or.inl (mem_combinations_length 2 _ combo h2)
    · exact Or.inr (mem_combinations_length 3 _ combo h3)
  refine ⟨of_decide_eq_true hok, hlen23, ?_, ⟨pre, post, henum, ?_⟩, ?_, ?_⟩
  · rintro ⟨c2, hc2, hc2ok⟩
    have hsome : ((Recon.Matching.combinations 2 (Recon.Matching.otmCandidates st w)).find?
        (fun c => Recon.Matching.comboOk rules w c)).isSome :=
      List.find?_isSome.mpr ⟨c2, hc2, decide_eq_true hc2ok⟩
    rcases hf2 : (Recon.Matching.combinations 2 (Recon.Matching.otmCandidates st w)).find?
        (fun c => Recon.Matching.comboOk rules w c) with _ | c2'
    · rw [hf2] at hsome
      simp at hsome
    · rw [List.find?_append, hf2] at hfind
      rw [show ∀ (o : Option (List Recon.Matching.Txn)), (some c2').or o = some c2' from
        fun o => rfl] at hfind
      injection hfind with hceq
      rw [← hceq]
      exact mem_combinations_length 2 _ c2' (List.mem_of_find?_eq_some hf2)
  · intro c hc
    intro hcok
    have := hpre c hc
    rw [decide_eq_true hcok] at this
    exact absurd this (by simp)
  · rw [hstep]
    exact otm_fold_match_records w combo.length combo st
  · rw [hstep, otm_fold_way4_left]
    have hne : combo.isEmpty = false := by
      rcases hlen23 with h | h <;> (cases combo with
        | nil => simp at h
        | cons a t => rfl)
    rw [hne]
    simp only [Bool.false_eq_true, if_false]
    exact dmem_dpop_self st.way4_left w.txn_id

/-- Witness for C4: left amount 200 against two remaining candidates of 120
and 80 with the same rrn, currency and merchant — the pair wins, two
PARTIAL_MATCH records are emitted, and the left row leaves the working set. -/
theorem C4_one_to_many_witness :
    (Recon.Matching.combinations 2 (Recon.Matching.otmCandidates
        ⟨[("W1", ⟨"W1", "WAY4_EXPORT", "2026-02-22", "R", none, 200, "KZT", 0, "PURCHASE", "M1", "POS"⟩)],
         [("V1", ⟨"V1", "VISA_EXPORT", "2026-02-22", "R", none, 120, "KZT", 0, "CLEARING", "M1", "POS"⟩),
          ("V2", ⟨"V2", "VISA_EXPORT", "2026-02-22", "R", none, 80, "KZT", 0, "CLEARING", "M1", "POS"⟩)],
         [], []⟩
        ⟨"W1", "WAY4_EXPORT", "2026-02-22", "R", none, 200, "KZT", 0, "PURCHASE", "M1", "POS"⟩) ++
      Recon.Matching.combinations 3 (Recon.Matching.otmCandidates
        ⟨[("W1", ⟨"W1", "WAY4_EXPORT", "2026-02-22", "R", none, 200, "KZT", 0, "PURCHASE", "M1", "POS"⟩)],
         [("V1", ⟨"V1", "VISA_EXPORT", "2026-02-22", "R", none, 120, "KZT", 0, "CLEARING", "M1", "POS"⟩),
          ("V2", ⟨"V2", "VISA_EXPORT", "2026-02-22", "R", none, 80, "KZT", 0, "CLEARING", "M1", "POS"⟩)],
         [], []⟩
        ⟨"W1", "WAY4_EXPORT", "2026-02-22", "R", none, 200, "KZT", 0, "PURCHASE", "M1", "POS"⟩)).find?
      (fun c => Recon.Matching.comboOk ⟨"v1", 2, 1, 3/4⟩
        ⟨"W1", "WAY4_EXPORT", "2026-02-22", "R", none, 200, "KZT", 0, "PURCHASE", "M1", "POS"⟩ c) =
      some [⟨"V1", "VISA_EXPORT", "2026-02-22", "R", none, 120, "KZT", 0, "CLEARING", "M1", "POS"⟩,
            ⟨"V2", "VISA_EXPORT", "2026-02-22", "R", none, 80, "KZT", 0, "CLEARING", "M1", "POS"⟩] ∧
    Recon.Matching.comboOk ⟨"v1", 2, 1, 3/4⟩
      ⟨"W1", "WAY4_EXPORT", "2026-02-22", "R", none, 200, "KZT", 0, "PURCHASE", "M1", "POS"⟩
      [⟨"V1", "VISA_EXPORT", "2026-02-22", "R", none, 120, "KZT", 0, "CLEARING", "M1", "POS"⟩,
       ⟨"V2", "VISA_EXPORT", "2026-02-22", "R", none, 80, "KZT", 0, "CLEARING", "M1", "POS"⟩] ∧
    Recon.Matching.dmem (Recon.Matching.pass4Step ⟨"v1", 2, 1, 3/4⟩
      ⟨[("W1", ⟨"W1", "WAY4_EXPORT", "2026-02-22", "R", none, 200, "KZT", 0, "PURCHASE", "M1", "POS"⟩)],
       [("V1", ⟨"V1", "VISA_EXPORT", "2026-02-22", "R", none, 120, "KZT", 0, "CLEARING", "M1", "POS"⟩),
        ("V2", ⟨"V2", "VISA_EXPORT", "2026-02-22", "R", none, 80, "KZT", 0, "CLEARING", "M1", "POS"⟩)],
       [], []⟩
      ⟨"W1", "WAY4_EXPORT", "2026-02-22", "R", none, 200, "KZT", 0, "PURCHASE", "M1", "POS"⟩).way4_left
      "W1" = false := by
  have hf : (Recon.Matching.combinations 2 (Recon.Matching.otmCandidates
        ⟨[("W1", ⟨"W1", "WAY4_EXPORT", "2026-02-22", "R", none, 200, "KZT", 0, "PURCHASE", "M1", "POS"⟩)],
         [("V1", ⟨"V1", "VISA_EXPORT", "2026-02-22", "R", none, 120, "KZT", 0, "CLEARING", "M1", "POS"⟩),
          ("V2", ⟨"V2", "VISA_EXPORT", "2026-02-22", "R", none, 80, "KZT", 0, "CLEARING", "M1", "POS"⟩)],
         [], []⟩
        ⟨"W1", "WAY4_EXPORT", "2026-02-22", "R", none, 200, "KZT", 0, "PURCHASE", "M1", "POS"⟩) ++
      Recon.Matching.combinations 3 (Recon.Matching.otmCandidates
        ⟨[("W1", ⟨"W1", "WAY4_EXPORT", "2026-02-22", "R", none, 200, "KZT", 0, "PURCHASE", "M1", "POS"⟩)],
         [("V1", ⟨"V1", "VISA_EXPORT", "2026-02-22", "R", none, 120, "KZT", 0, "CLEARING", "M1", "POS"⟩),
          ("V2", ⟨"V2", "VISA_EXPORT", "2026-02-22", "R", none, 80, "KZT", 0, "CLEARING", "M1", "POS"⟩)],
         [], []⟩
        ⟨"W1", "WAY4_EXPORT", "2026-02-22", "R", none, 200, "KZT", 0, "PURCHASE", "M1", "POS"⟩)).find?
      (fun c => Recon.Matching.comboOk ⟨"v1", 2, 1, 3/4⟩
        ⟨"W1", "WAY4_EXPORT", "2026-02-22", "R", none, 200, "KZT", 0, "PURCHASE", "M1", "POS"⟩ c) =
      some [⟨"V1", "VISA_EXPORT", "2026-02-22", "R", none, 120, "KZT", 0, "CLEARING", "M1", "POS"⟩,
            ⟨"V2", "VISA_EXPORT", "2026-02-22", "R", none, 80, "KZT", 0, "CLEARING", "M1", "POS"⟩] := by
    with_unfolding_all rfl
  refine ⟨hf, (C4_one_to_many _ _ _ _ hf).1, (C4_one_to_many _ _ _ _ hf).2.2.2.2.2⟩

lemma foldl_inv {σ α : Type} (P : σ → Prop) (f : σ → α → σ)
    (hf : ∀ s a, P s → P (f s a)) :
    ∀ (l : List α) (s : σ), P s → P (l.foldl f s) := by
  intro l
  induction l with
  | nil => intro s hs; exact hs
  | cons a t ih => intro s hs; exact ih (f s a) (hf s a hs)

lemma dmem_iff_exists (d : Recon.Matching.Dict) (id : String) :
    Recon.Matching.dmem d id = true ↔ ∃ p ∈ d, p.1 = id := by
  rw [Recon.Matching.dmem, List.any_eq_true]
  constructor
  · rintro ⟨p, hp, hpe⟩
    exact ⟨p, hp, of_decide_eq_true hpe⟩
  · rintro ⟨p, hp, hpe⟩
    exact ⟨p, hp, decide_eq_true hpe⟩

lemma dmem_iff_keys (d : Recon.Matching.Dict) (id : String) :
    Recon.Matching.dmem d id = true ↔ id ∈ d.map Prod.fst := by
  rw [dmem_iff_exists, List.mem_map]

lemma dmem_dpop_iff (d : Recon.Matching.Dict) (k id : String) :
    Recon.Matching.dmem (Recon.Matching.dpop d k) id = true ↔
      (Recon.Matching.dmem d id = true ∧ ¬ id = k) := by
  rw [dmem_iff_exists, dmem_iff_exists, Recon.Matching.dpop]
  constructor
  · rintro ⟨p, hp, hpe⟩
    rw [List.mem_filter] at hp
    obtain ⟨hpd, hpk⟩ := hp
    have hpk' : ¬ p.1 = k := of_decide_eq_true hpk
    exact ⟨⟨p, hpd, hpe⟩, by rw [← hpe]; exact hpk'⟩
  · rintro ⟨⟨p, hp, hpe⟩, hik⟩
    refine ⟨p, List.mem_filter.mpr ⟨hp, decide_eq_true ?_⟩, hpe⟩
    rw [hpe]
    exact hik

lemma dpop_map_fst_sublist (d : Recon.Matching.Dict) (k : String) :
    ((Recon.Matching.dpop d k).map Prod.fst).Sublist (d.map Prod.fst) :=
  (List.filter_sublist d).map Prod.fst

lemma mem_dpop_subset {d : Recon.Matching.Dict} {k : String}
    {p : String × Recon.Matching.Txn} (hp : p ∈ Recon.Matching.dpop d k) : p ∈ d :=
  List.mem_of_mem_filter hp

lemma dmem_dinsert_self (d : Recon.Matching.Dict) (k : String) (v : Recon.Matching.Txn) :
    Recon.Matching.dmem (Recon.Matching.dinsert d k v) k = true := by
  rw [Recon.Matching.dinsert]
  by_cases hk : Recon.Matching.dmem d k = true
  · rw [if_pos hk]
    rw [dmem_iff_exists] at hk ⊢
    obtain ⟨p, hp, hpe⟩ := hk
    refine ⟨(k, v), List.mem_map.mpr ⟨p, hp, ?_⟩, rfl⟩
    rw [if_pos hpe]
  · rw [if_neg hk, dmem_iff_exists]
    exact ⟨(k, v), List.mem_append_right _ (List.mem_singleton.mpr rfl), rfl⟩

lemma dinsert_map_fst (d : Recon.Matching.Dict) (k : String) (v : Recon.Matching.Txn) :
    (Recon.Matching.dinsert d k v).map Prod.fst =
      if Recon.Matching.dmem d k then d.map Prod.fst else d.map Prod.fst ++ [k] := by
  rw [Recon.Matching.dinsert]
  by_cases hk : Recon.Matching.dmem d k = true
  · rw [if_pos hk, if_pos hk, List.map_map]
    apply List.map_congr_left
    intro p hp
    by_cases hpk : p.1 = k
    · show (if p.1 = k then (k, v) else p).1 = p.1
      rw [if_pos hpk]
      exact hpk.symm
    · show (if p.1 = k then (k, v) else p).1 = p.1
      rw [if_neg hpk]
  · rw [if_neg hk, if_neg hk, List.map_append]
    rfl

lemma dmem_dinsert_mono (d : Recon.Matching.Dict) (k id : String) (v : Recon.Matching.Txn)
    (h : Recon.Matching.dmem d id = true) :
    Recon.Matching.dmem (Recon.Matching.dinsert d k v) id = true := by
  rw [dmem_iff_keys, dinsert_map_fst]
  rw [dmem_iff_keys] at h
  by_cases hk : Recon.Matching.dmem d k = true
  · rw [if_pos hk]
    exact h
  · rw [if_neg hk]
    exact List.mem_append_left _ h

lemma mem_dinsert {d : Recon.Matching.Dict} {k : String} {v : Recon.Matching.Txn}
    {p : String × Recon.Matching.Txn} (hp : p ∈ Recon.Matching.dinsert d k v) :
    p ∈ d ∨ p = (k, v) := by
  rw [Recon.Matching.dinsert] at hp
  by_cases hk : Recon.Matching.dmem d k = true
  · rw [if_pos hk] at hp
    obtain ⟨q, hq, hqe⟩ := List.mem_map.mp hp
    by_cases hqk : q.1 = k
    · rw [if_pos hqk] at hqe
      exact Or.inr hqe.symm
    · rw [if_neg hqk] at hqe
      exact Or.inl (hqe ▸ hq)
  · rw [if_neg hk] at hp
    rcases List.mem_append.mp hp with hp | hp
    · exact Or.inl hp
    · exact Or.inr (List.mem_singleton.mp hp)

lemma seedDict_wf (ts : List Recon.Matching.Txn) :
    ((Recon.Matching.seedDict ts).map Prod.fst).Nodup ∧
      (∀ p ∈ Recon.Matching.seedDict ts, p.1 = p.2.txn_id) := by
  rw [Recon.Matching.seedDict]
  refine foldl_inv (fun d => (d.map Prod.fst).Nodup ∧ ∀ p ∈ d, p.1 = p.2.txn_id)
    (fun d t => Recon.Matching.dinsert d t.txn_id t) ?_ ts [] ?_
  · intro d t hd
    constructor
    · rw [dinsert_map_fst]
      by_cases hk : Recon.Matching.dmem d t.txn_id = true
      · rw [if_pos hk]
        exact hd.1
      · rw [if_neg hk]
        rw [List.nodup_append]
        refine ⟨hd.1, List.nodup_singleton _, ?_⟩
        intro a ha hb
        rw [List.mem_singleton] at hb
        rw [hb] at ha
        rw [← dmem_iff_keys] at ha
        exact hk ha
    · intro p hp
      rcases mem_dinsert hp with hp | hp
      · exact hd.2 p hp
      · rw [hp]
  · exact ⟨List.nodup_nil, fun p hp => absurd hp (List.not_mem_nil p)⟩

lemma seedDict_mem (ts : List Recon.Matching.Txn) :
    ∀ t ∈ ts, Recon.Matching.dmem (Recon.Matching.seedDict ts) t.txn_id = true := by
  rw [Recon.Matching.seedDict]
  suffices h : ∀ (l : List Recon.Matching.Txn) (d : Recon.Matching.Dict), ∀ t ∈ l,
      Recon.Matching.dmem (l.foldl (fun d t => Recon.Matching.dinsert d t.txn_id t) d)
        t.txn_id = true by
    intro t ht
    exact h ts [] t ht
  intro l
  induction l with
  | nil => intro d t ht; exact absurd ht (List.not_mem_nil t)
  | cons a rest ih =>
    intro d t ht
    rw [List.foldl_cons]
    rcases List.mem_cons.mp ht with rfl | ht
    · exact foldl_inv (fun d => Recon.Matching.dmem d t.txn_id = true) _
        (fun s x hs => dmem_dinsert_mono s x.txn_id t.txn_id x hs) rest _
        (dmem_dinsert_self d t.txn_id t)
    · exact ih _ t ht

lemma dvalues_dmem {d : Recon.Matching.Dict}
    (hkv : ∀ p ∈ d, p.1 = p.2.txn_id) {c : Recon.Matching.Txn}
    (hc : c ∈ Recon.Matching.dvalues d) : Recon.Matching.dmem d c.txn_id = true := by
  rw [Recon.Matching.dvalues] at hc
  obtain ⟨p, hp, hpe⟩ := List.mem_map.mp hc
  rw [dmem_iff_exists]
  refine ⟨p, hp, ?_⟩
  rw [hkv p hp, hpe]

lemma dvalues_ids_eq_keys {d : Recon.Matching.Dict}
    (hkv : ∀ p ∈ d, p.1 = p.2.txn_id) :
    (Recon.Matching.dvalues d).map Recon.Matching.Txn.txn_id = d.map Prod.fst := by
  rw [Recon.Matching.dvalues, List.map_map]
  apply List.map_congr_left
  intro p hp
  exact (hkv p hp).symm

lemma record_match_match_records (st : Recon.Matching.EngineState)
    (left : Recon.Matching.Txn) (right : Option Recon.Matching.Txn)
    (mt : String) (sc : ℚ) (rs : String) (ex : Recon.Matching.Explain) :
    (Recon.Matching.record_match st left right mt sc rs ex).match_records =
      st.match_records ++
        [{ left_txn_id := left.txn_id
           right_txn_id := right.map Recon.Matching.Txn.txn_id
           match_type := mt
           score := Recon.Matching.roundTo 4 sc
           reason_code := rs
           explain := ex }] := rfl

lemma record_match_exceptions (st : Recon.Matching.EngineState)
    (left : Recon.Matching.Txn) (right : Option Recon.Matching.Txn)
    (mt : String) (sc : ℚ) (rs : String) (ex : Recon.Matching.Explain) :
    (Recon.Matching.record_match st left right mt sc rs ex).exceptions = st.exceptions := rfl

lemma record_match_way4_left (st : Recon.Matching.EngineState)
    (left : Recon.Matching.Txn) (right : Option Recon.Matching.Txn)
    (mt : String) (sc : ℚ) (rs : String) (ex : Recon.Matching.Explain) :
    (Recon.Matching.record_match st left right mt sc rs ex).way4_left =
      Recon.Matching.dpop st.way4_left left.txn_id := rfl

lemma record_match_visa_left_some (st : Recon.Matching.EngineState)
    (left r : Recon.Matching.Txn)
    (mt : String) (sc : ℚ) (rs : String) (ex : Recon.Matching.Explain) :
    (Recon.Matching.record_match st left (some r) mt sc rs ex).visa_left =
      Recon.Matching.dpop st.visa_left r.txn_id := rfl

lemma record_match_visa_left_none (st : Recon.Matching.EngineState)
    (left : Recon.Matching.Txn)
    (mt : String) (sc : ℚ) (rs : String) (ex : Recon.Matching.Explain) :
    (Recon.Matching.record_match st left none mt sc rs ex).visa_left = st.visa_left := rfl

lemma countRight_append_single (ms : List Recon.Matching.MatchRec)
    (m : Recon.Matching.MatchRec) (id : String) :
    Recon.Matching.countRight (ms ++ [m]) id =
      Recon.Matching.countRight ms id + (if m.right_txn_id = some id then 1 else 0) := by
  rw [Recon.Matching.countRight, Recon.Matching.countRight, List.countP_append]
  congr 1
  by_cases h : m.right_txn_id = some id <;> simp [List.countP_cons, h]

lemma countRight_eq_zero_iff (ms : List Recon.Matching.MatchRec) (id : String) :
    Recon.Matching.countRight ms id = 0 ↔ ∀ m ∈ ms, ¬ m.right_txn_id = some id := by
  rw [Recon.Matching.countRight, List.countP_eq_zero]
  constructor
  · intro h m hm
    have := h m hm
    simpa using this
  · intro h m hm
    simpa using h m hm

lemma record_match_inv (w0 v0 : Recon.Matching.Dict) (st : Recon.Matching.EngineState)
    (left : Recon.Matching.Txn) (right : Option Recon.Matching.Txn)
    (mt : String) (sc : ℚ) (rs : String) (ex : Recon.Matching.Explain)
    (hinv : Recon.Matching.EngineInv w0 v0 st)
    (hr : ∀ r, right = some r → Recon.Matching.dmem st.visa_left r.txn_id = true)
    (hmt : mt = "MATCHED" ∨ mt = "PARTIAL_MATCH") :
    Recon.Matching.EngineInv w0 v0 (Recon.Matching.record_match st left right mt sc rs ex) := by
  obtain ⟨hnd, hkvv, hkvw, hA, hB, hC, hD, hE, hT⟩ := hinv
  rcases right with _ | r
  · refine ⟨?_, ?_, ?_, ?_, ?_, ?_, ?_, ?_, ?_⟩
    · rw [record_match_visa_left_none]
      exact hnd
    · rw [record_match_visa_left_none]
      exact hkvv
    · rw [record_match_way4_left]
      intro p hp
      exact hkvw p (mem_dpop_subset hp)
    · intro id hid
      rw [record_match_visa_left_none] at hid
      rw [record_match_match_records, countRight_append_single, hA id hid]
      simp
    · intro id
      rw [record_match_match_records, countRight_append_single]
      have := hB id
      simp only [Option.map_eq_map]
      rw [if_neg (by simp)]
      omega
    · intro id h0
      rcases hC id h0 with hdm | ⟨m, hm, hme⟩
      · rw [record_match_visa_left_none]
        exact Or.inl hdm
      · exact Or.inr ⟨m, by rw [record_match_match_records]; exact List.mem_append_left _ hm, hme⟩
    · intro id h0
      rcases hD id h0 with hdm | ⟨m, hm, hme⟩
      · by_cases hidl : id = left.txn_id
        · refine Or.inr ⟨⟨left.txn_id, none, mt, Recon.Matching.roundTo 4 sc, rs, ex⟩, ?_, ?_⟩
          · rw [record_match_match_records]
            exact List.mem_append_right _ (List.mem_singleton.mpr rfl)
          · rw [hidl]
        · refine Or.inl ?_
          rw [record_match_way4_left]
          exact (dmem_dpop_iff _ _ _).mpr ⟨hdm, hidl⟩
      · exact Or.inr ⟨m, by rw [record_match_match_records]; exact List.mem_append_left _ hm, hme⟩
    · rw [record_match_exceptions]
      exact hE
    · intro m hm
      rw [record_match_match_records] at hm
      rcases List.mem_append.mp hm with hm | hm
      · exact hT m hm
      · rw [List.mem_singleton.mp hm]
        exact hmt
  · have hrm : Recon.Matching.dmem st.visa_left r.txn_id = true := hr r rfl
    refine ⟨?_, ?_, ?_, ?_, ?_, ?_, ?_, ?_, ?_⟩
    · rw [record_match_visa_left_some]
      exact List.Nodup.sublist (dpop_map_fst_sublist st.visa_left r.txn_id) hnd
    · rw [record_match_visa_left_some]
      intro p hp
      exact hkvv p (mem_dpop_subset hp)
    · rw [record_match_way4_left]
      intro p hp
      exact hkvw p (mem_dpop_subset hp)
    · intro id hid
      rw [record_match_visa_left_some] at hid
      obtain ⟨hdm, hne⟩ := (dmem_dpop_iff _ _ _).mp hid
      rw [record_match_match_records, countRight_append_single, hA id hdm]
      rw [if_neg (by simp; intro h; exact hne h.symm)]
    · intro id
      rw [record_match_match_records, countRight_append_single]
      by_cases hid : id = r.txn_id
      · rw [hid, hA r.txn_id hrm]
        split <;> omega
      · rw [if_neg (by simp; intro h; exact hid h.symm)]
        have := hB id
        omega
    · intro id h0
      rcases hC id h0 with hdm | ⟨m, hm, hme⟩
      · by_cases hid : id = r.txn_id
        · refine Or.inr ⟨⟨left.txn_id, some r.txn_id, mt, Recon.Matching.roundTo 4 sc, rs, ex⟩, ?_, ?_⟩
          · rw [record_match_match_records]
            exact List.mem_append_right _ (List.mem_singleton.mpr rfl)
          · rw [hid]
        · refine Or.inl ?_
          rw [record_match_visa_left_some]
          exact (dmem_dpop_iff _ _ _).mpr ⟨hdm, hid⟩
      · exact Or.inr ⟨m, by rw [record_match_match_records]; exact List.mem_append_left _ hm, hme⟩
    · intro id h0
      rcases hD id h0 with hdm | ⟨m, hm, hme⟩
      · by_cases hidl : id = left.txn_id
        · refine Or.inr ⟨⟨left.txn_id, some r.txn_id, mt, Recon.Matching.roundTo 4 sc, rs, ex⟩, ?_, ?_⟩
          · rw [record_match_match_records]
            exact List.mem_append_right _ (List.mem_singleton.mpr rfl)
          · rw [hidl]
        · refine Or.inl ?_
          rw [record_match_way4_left]
          exact (dmem_dpop_iff _ _ _).mpr ⟨hdm, hidl⟩
      · exact Or.inr ⟨m, by rw [record_match_match_records]; exact List.mem_append_left _ hm, hme⟩
    · rw [record_match_exceptions]
      exact hE
    · intro m hm
      rw [record_match_match_records] at hm
      rcases List.mem_append.mp hm with hm | hm
      · exact hT m hm
      · rw [List.mem_singleton.mp hm]
        exact hmt

lemma record_exception_inv (w0 v0 : Recon.Matching.Dict) (st : Recon.Matching.EngineState)
    (txn : Recon.Matching.Txn) (sev rsn : String)
    (hinv : Recon.Matching.EngineInv w0 v0 st) :
    Recon.Matching.EngineInv w0 v0
      (Recon.Matching.record_exception st txn "DUPLICATE" sev rsn) := by
  obtain ⟨hnd, hkvv, hkvw, hA, hB, hC, hD, hE, hT⟩ := hinv
  refine ⟨hnd, hkvv, hkvw, hA, hB, hC, hD, ?_, hT⟩
  intro e he
  simp only [Recon.Matching.record_exception] at he
  rcases List.mem_append.mp he with he | he
  · exact hE e he
  · rw [List.mem_singleton.mp he]

lemma pass1Step_inv (w0 v0 : Recon.Matching.Dict) (visa : List Recon.Matching.Txn)
    (st : Recon.Matching.EngineState) (w : Recon.Matching.Txn)
    (hinv : Recon.Matching.EngineInv w0 v0 st) :
    Recon.Matching.EngineInv w0 v0 (Recon.Matching.pass1Step visa st w) := by
  rw [Recon.Matching.pass1Step]
  rcases hc : Recon.Matching.exactCandidates visa st w with _ | ⟨c, rest⟩
  · exact hinv
  · rcases rest with _ | ⟨c2, rest2⟩
    · refine record_match_inv w0 v0 st w (some c) _ _ _ _ hinv ?_ (Or.inl rfl)
      intro r hrr
      injection hrr with h
      rw [← h]
      have hcm : c ∈ Recon.Matching.exactCandidates visa st w := by
        rw [hc]
        exact List.mem_singleton.mpr rfl
      rw [Recon.Matching.exactCandidates] at hcm
      exact (List.mem_filter.mp hcm).2
    · exact record_exception_inv w0 v0 st w _ _ hinv

lemma pass2Step_inv (w0 v0 : Recon.Matching.Dict) (visa : List Recon.Matching.Txn)
    (rules : Recon.Matching.RuleSet)
    (st : Recon.Matching.EngineState) (w : Recon.Matching.Txn)
    (hinv : Recon.Matching.EngineInv w0 v0 st) :
    Recon.Matching.EngineInv w0 v0 (Recon.Matching.pass2Step visa rules st w) := by
  rw [Recon.Matching.pass2Step]
  by_cases ha : Recon.Matching.truthyArn w.arn = true
  · rw [if_pos ha]
    rcases hc : Recon.Matching.arnCandidates visa st w with _ | ⟨c, rest⟩
    · exact hinv
    · rcases rest with _ | ⟨c2, rest2⟩
      · show Recon.Matching.EngineInv w0 v0
          (if rules.score_threshold ≤ (Recon.Matching.fuzzy_score w c rules).1 then
            Recon.Matching.record_match st w (some c)
              (if 0 < |w.amount - c.amount| then "PARTIAL_MATCH" else "MATCHED")
              (Recon.Matching.fuzzy_score w c rules).1 "ARN_MATCH_WITH_TOLERANCE"
              (Recon.Matching.Explain.arn (Recon.Matching.fuzzy_score w c rules).2)
          else st)
        by_cases hsc : rules.score_threshold ≤ (Recon.Matching.fuzzy_score w c rules).1
        · rw [if_pos hsc]
          refine record_match_inv w0 v0 st w (some c) _ _ _ _ hinv ?_ ?_
          · intro r hrr
            injection hrr with h
            rw [← h]
            have hcm : c ∈ Recon.Matching.arnCandidates visa st w := by
              rw [hc]
              exact List.mem_singleton.mpr rfl
            rw [Recon.Matching.arnCandidates] at hcm
            exact (List.mem_filter.mp hcm).2
          · by_cases hab : 0 < |w.amount - c.amount|
            · rw [if_pos hab]
              exact Or.inr rfl
            · rw [if_neg hab]
              exact Or.inl rfl
        · rw [if_neg hsc]
          exact hinv
      · exact hinv
  · rw [if_neg ha]
    exact hinv

lemma pass3Step_inv (w0 v0 : Recon.Matching.Dict) (visa : List Recon.Matching.Txn)
    (rules : Recon.Matching.RuleSet)
    (st : Recon.Matching.EngineState) (w : Recon.Matching.Txn)
    (hinv : Recon.Matching.EngineInv w0 v0 st) :
    Recon.Matching.EngineInv w0 v0 (Recon.Matching.pass3Step visa rules st w) := by
  simp only [Recon.Matching.pass3Step]
  rcases hsort : List.insertionSort Recon.Matching.scoreRel
      (Recon.Matching.scoredList rules w (Recon.Matching.fuzzyCandidates visa rules st w))
      with _ | ⟨top, rest⟩
  · exact hinv
  · show Recon.Matching.EngineInv w0 v0
        (if rules.score_threshold ≤ top.1 ∧
            5/100 < top.1 - Recon.Matching.secondScore rest then
          Recon.Matching.record_match st w (some top.2.1)
            (if 0 < |w.amount - top.2.1.amount| then "PARTIAL_MATCH" else "MATCHED")
            top.1 "FUZZY_SCORE" (Recon.Matching.Explain.fuzzy top.2.2)
        else st)
    by_cases hgate : rules.score_threshold ≤ top.1 ∧
        5/100 < top.1 - Recon.Matching.secondScore rest
    · rw [if_pos hgate]
      refine record_match_inv w0 v0 st w (some top.2.1) _ _ _ _ hinv ?_ ?_
      · intro r hrr
        injection hrr with h
        rw [← h]
        have htop : top ∈ List.insertionSort Recon.Matching.scoreRel
            (Recon.Matching.scoredList rules w
              (Recon.Matching.fuzzyCandidates visa rules st w)) := by
          rw [hsort]
          exact List.mem_cons_self top rest
        have htop' : top ∈ Recon.Matching.scoredList rules w
            (Recon.Matching.fuzzyCandidates visa rules st w) :=
          (List.perm_insertionSort Recon.Matching.scoreRel _).mem_iff.mp htop
        rw [Recon.Matching.scoredList] at htop'
        obtain ⟨c, hcm, hce⟩ := List.mem_map.mp htop'
        have hc21 : top.2.1 = c := by rw [← hce]
        rw [hc21]
        rw [Recon.Matching.fuzzyCandidates] at hcm
        have := (List.mem_filter.mp hcm).2
        exact (of_decide_eq_true this).1
      · by_cases hab : 0 < |w.amount - top.2.1.amount|
        · rw [if_pos hab]
          exact Or.inr rfl
        · rw [if_neg hab]
          exact Or.inl rfl
    · rw [if_neg hgate]
      exact hinv

lemma otm_fold_inv (w0 v0 : Recon.Matching.Dict) (w : Recon.Matching.Txn) (k : ℕ) :
    ∀ (combo : List Recon.Matching.Txn) (st : Recon.Matching.EngineState),
      Recon.Matching.EngineInv w0 v0 st →
      (combo.map Recon.Matching.Txn.txn_id).Nodup →
      (∀ c ∈ combo, Recon.Matching.dmem st.visa_left c.txn_id = true) →
      Recon.Matching.EngineInv w0 v0 (combo.foldl (fun st c =>
        Recon.Matching.record_match st w (some c) "PARTIAL_MATCH" (8/10)
          "ONE_TO_MANY_SUM_MATCH" (Recon.Matching.Explain.one_to_many k)) st) := by
  intro combo
  induction combo with
  | nil => intro st hinv _ _; exact hinv
  | cons c t ih =>
    intro st hinv hnd hmem
    rw [List.foldl_cons]
    have hinv' := record_match_inv w0 v0 st w (some c) "PARTIAL_MATCH" (8/10)
      "ONE_TO_MANY_SUM_MATCH" (Recon.Matching.Explain.one_to_many k) hinv
      (by intro r hrr; injection hrr with h; rw [← h];
          exact hmem c (List.mem_cons_self c t)) (Or.inr rfl)
    refine ih _ hinv' ?_ ?_
    · exact (List.nodup_cons.mp hnd).2
    · intro c' hc'
      rw [record_match_visa_left_some]
      refine (dmem_dpop_iff _ _ _).mpr ⟨hmem c' (List.mem_cons_of_mem c hc'), ?_⟩
      intro hne
      have := (List.nodup_cons.mp hnd).1
      apply this
      rw [← hne]
      exact List.mem_map_of_mem Recon.Matching.Txn.txn_id hc'

lemma pass4Step_inv (w0 v0 : Recon.Matching.Dict) (rules : Recon.Matching.RuleSet)
    (st : Recon.Matching.EngineState) (w : Recon.Matching.Txn)
    (hinv : Recon.Matching.EngineInv w0 v0 st) :
    Recon.Matching.EngineInv w0 v0 (Recon.Matching.pass4Step rules st w) := by
  simp only [Recon.Matching.pass4Step]
  rcases hfind : (Recon.Matching.combinations 2 (Recon.Matching.otmCandidates st w) ++
      Recon.Matching.combinations 3 (Recon.Matching.otmCandidates st w)).find?
      (fun c => Recon.Matching.comboOk rules w c) with _ | combo
  · exact hinv
  · have hsub : combo.Sublist (Recon.Matching.otmCandidates st w) := by
      rcases List.mem_append.mp (List.mem_of_find?_eq_some hfind) with h2 | h3
      · exact mem_combinations_sublist 2 _ combo h2
      · exact mem_combinations_sublist 3 _ combo h3
    have hkvv := hinv.2.1
    have hnd := hinv.1
    have hcands : (Recon.Matching.otmCandidates st w).Sublist
        (Recon.Matching.dvalues st.visa_left) := List.filter_sublist _
    have hids : (combo.map Recon.Matching.Txn.txn_id).Nodup := by
      have h1 : (combo.map Recon.Matching.Txn.txn_id).Sublist
          ((Recon.Matching.dvalues st.visa_left).map Recon.Matching.Txn.txn_id) :=
        (hsub.trans hcands).map _
      rw [dvalues_ids_eq_keys hkvv] at h1
      exact List.Nodup.sublist h1 hnd
    refine otm_fold_inv w0 v0 w combo.length combo st hinv hids ?_
    intro c hc
    have hcv : c ∈ Recon.Matching.dvalues st.visa_left :=
      hcands.subset (hsub.subset hc)
    exact dvalues_dmem hkvv hcv

lemma engineStage4_inv (way4 visa : List Recon.Matching.Txn)
    (rules : Recon.Matching.RuleSet) :
    Recon.Matching.EngineInv (Recon.Matching.seedDict way4) (Recon.Matching.seedDict visa)
      (Recon.Matching.engineStage4 way4 visa rules) := by
  simp only [Recon.Matching.engineStage4]
  have hinit : Recon.Matching.EngineInv (Recon.Matching.seedDict way4)
      (Recon.Matching.seedDict visa)
      ⟨Recon.Matching.seedDict way4, Recon.Matching.seedDict visa, [], []⟩ := by
    refine ⟨(seedDict_wf visa).1, (seedDict_wf visa).2, (seedDict_wf way4).2, ?_, ?_, ?_, ?_, ?_, ?_⟩
    · intro id _
      rfl
    · intro id
      exact Nat.zero_le 1
    · intro id h0
      exact Or.inl h0
    · intro id h0
      exact Or.inl h0
    · intro e he
      exact absurd he (List.not_mem_nil e)
    · intro m hm
      exact absurd hm (List.not_mem_nil m)
  exact foldl_inv _ _ (fun s a hs => pass4Step_inv _ _ rules s a hs) _ _
    (foldl_inv _ _ (fun s a hs => pass3Step_inv _ _ visa rules s a hs) _ _
      (foldl_inv _ _ (fun s a hs => pass2Step_inv _ _ visa rules s a hs) _ _
        (foldl_inv _ _ (fun s a hs => pass1Step_inv _ _ visa s a hs) _ _ hinit)))

lemma missing_fold_eqs :
    ∀ (l : List Recon.Matching.Txn) (st : Recon.Matching.EngineState),
      (l.foldl Recon.Matching.missingVisaStep st).match_records = st.match_records ∧
      (l.foldl Recon.Matching.missingVisaStep st).way4_left = st.way4_left ∧
      (l.foldl Recon.Matching.missingVisaStep st).visa_left = st.visa_left ∧
      (l.foldl Recon.Matching.missingVisaStep st).exceptions = st.exceptions ++
        l.map (fun w =>
          { primary_txn_id := w.txn_id
            category := "MISSING_IN_VISA"
            severity := "MEDIUM"
            status := "NEW"
            reason := "No cross-source candidate found" }) := by
  intro l
  induction l with
  | nil => intro st; exact ⟨rfl, rfl, rfl, by simp⟩
  | cons a t ih =>
    intro st
    rw [List.foldl_cons]
    obtain ⟨h1, h2, h3, h4⟩ := ih (Recon.Matching.missingVisaStep st a)
    refine ⟨h1, h2, h3, ?_⟩
    rw [h4]
    simp only [Recon.Matching.missingVisaStep, Recon.Matching.record_exception]
    rw [List.map_cons, List.append_assoc]
    rfl

lemma engineFinal_eqs (way4 visa : List Recon.Matching.Txn) (rules : Recon.Matching.RuleSet) :
    (Recon.Matching.engineFinal way4 visa rules).match_records =
      (Recon.Matching.engineStage4 way4 visa rules).match_records ∧
    (Recon.Matching.engineFinal way4 visa rules).visa_left =
      (Recon.Matching.engineStage4 way4 visa rules).visa_left ∧
    (Recon.Matching.engineFinal way4 visa rules).exceptions =
      (Recon.Matching.engineStage4 way4 visa rules).exceptions ++
      (Recon.Matching.dvalues (Recon.Matching.engineStage4 way4 visa rules).way4_left).map
        (fun w =>
          { primary_txn_id := w.txn_id
            category := "MISSING_IN_VISA"
            severity := "MEDIUM"
            status := "NEW"
            reason := "No cross-source candidate found" }) ++
      (Recon.Matching.dvalues (Recon.Matching.engineStage4 way4 visa rules).visa_left).map
        Recon.Matching.missingWay4Row := by
  obtain ⟨h1, h2, h3, h4⟩ := missing_fold_eqs
    (Recon.Matching.dvalues (Recon.Matching.engineStage4 way4 visa rules).way4_left)
    (Recon.Matching.engineStage4 way4 visa rules)
  refine ⟨?_, ?_, ?_⟩
  · show (Recon.Matching.engineFinal way4 visa rules).match_records = _
    simp only [Recon.Matching.engineFinal]
    rw [h1]
  · simp only [Recon.Matching.engineFinal]
    rw [h3]
  · simp only [Recon.Matching.engineFinal]
    rw [h4, h3]

lemma match_transactions_eq_engineFinal (way4 visa : List Recon.Matching.Txn)
    (rules : Recon.Matching.RuleSet) :
    Recon.Matching.match_transactions way4 visa rules =
      ((Recon.Matching.engineFinal way4 visa rules).match_records,
       (Recon.Matching.engineFinal way4 visa rules).exceptions) := rfl

lemma countP_five_eq_length (l : List String)
    (h : ∀ s ∈ l, s = "MATCHED" ∨ s = "MISSING_IN_WAY4" ∨ s = "MISSING_IN_VISA" ∨
      s = "PARTIAL" ∨ s = "DUPLICATE") :
    l.countP (fun s => s = "MATCHED") + l.countP (fun s => s = "MISSING_IN_WAY4") +
      l.countP (fun s => s = "MISSING_IN_VISA") + l.countP (fun s => s = "PARTIAL") +
      l.countP (fun s => s = "DUPLICATE") = l.length := by
  induction l with
  | nil => rfl
  | cons a t ih =>
    have ht := ih (fun s hs => h s (List.mem_cons_of_mem a hs))
    have ha := h a (List.mem_cons_self a t)
    simp only [List.countP_cons, List.length_cons]
    rcases ha with ha | ha | ha | ha | ha <;> rw [ha] <;> simp <;> omega

/-- C9: every row the engine produces falls into exactly one of the five
counted statuses (MATCHED, MISSING_IN_WAY4, MISSING_IN_VISA, PARTIAL,
DUPLICATE), so for a FINISHED run — whose persisted `MatchResult` and
`ExceptionCase` rows are exactly the engine's two output lists — the Result
View summary counters sum to the total number of unified rows. -/
theorem C9_unified_summary_total (way4 visa : List Recon.Matching.Txn)
    (rules : Recon.Matching.RuleSet) :
    (Recon.ResultView.runStatuses (Recon.Matching.match_transactions way4 visa rules).1
        (Recon.Matching.match_transactions way4 visa rules).2).countP
        (fun s => s = "MATCHED") +
      (Recon.ResultView.runStatuses (Recon.Matching.match_transactions way4 visa rules).1
        (Recon.Matching.match_transactions way4 visa rules).2).countP
        (fun s => s = "MISSING_IN_WAY4") +
      (Recon.ResultView.runStatuses (Recon.Matching.match_transactions way4 visa rules).1
        (Recon.Matching.match_transactions way4 visa rules).2).countP
        (fun s => s = "MISSING_IN_VISA") +
      (Recon.ResultView.runStatuses (Recon.Matching.match_transactions way4 visa rules).1
        (Recon.Matching.match_transactions way4 visa rules).2).countP
        (fun s => s = "PARTIAL") +
      (Recon.ResultView.runStatuses (Recon.Matching.match_transactions way4 visa rules).1
        (Recon.Matching.match_transactions way4 visa rules).2).countP
        (fun s => s = "DUPLICATE") =
    (Recon.Matching.match_transactions way4 visa rules).1.length +
      (Recon.Matching.match_transactions way4 visa rules).2.length := by
  have hT := (engineStage4_inv way4 visa rules).2.2.2.2.2.2.2.2
  have hEx := (engineStage4_inv way4 visa rules).2.2.2.2.2.2.2.1
  obtain ⟨hm, hv, he⟩ := engineFinal_eqs way4 visa rules
  have hmem : ∀ s ∈ Recon.ResultView.runStatuses
      (Recon.Matching.match_transactions way4 visa rules).1
      (Recon.Matching.match_transactions way4 visa rules).2,
      s = "MATCHED" ∨ s = "MISSING_IN_WAY4" ∨ s = "MISSING_IN_VISA" ∨
        s = "PARTIAL" ∨ s = "DUPLICATE" := by
    intro s hs
    rw [Recon.ResultView.runStatuses, match_transactions_eq_engineFinal] at hs
    rcases List.mem_append.mp hs with hs | hs
    · obtain ⟨m, hmm, rfl⟩ := List.mem_map.mp hs
      rw [hm] at hmm
      rcases hT m hmm with ht | ht <;> rw [ht]
      · exact Or.inl rfl
      · exact Or.inr (Or.inr (Or.inr (Or.inl rfl)))
    · obtain ⟨ex, hex, rfl⟩ := List.mem_map.mp hs
      rw [he] at hex
      rcases List.mem_append.mp hex with hex | hex
      · rcases List.mem_append.mp hex with hex | hex
        · rw [hEx ex hex]
          exact Or.inr (Or.inr (Or.inr (Or.inr rfl)))
        · obtain ⟨wv, -, rfl⟩ := List.mem_map.mp hex
          exact Or.inr (Or.inr (Or.inl rfl))
      · obtain ⟨vv, -, rfl⟩ := List.mem_map.mp hex
        exact Or.inr (Or.inl rfl)
  refine (countP_five_eq_length _ hmem).trans ?_
  rw [Recon.ResultView.runStatuses]
  simp

/-- C10: the engine accounts for every input transaction — each left txn id
shows up as the left id of a match or the primary of an exception, each right
txn id is the right id of at most one match, and a right txn becomes a
MISSING_IN_WAY4 exception exactly when no match record carries its id. -/
theorem C10_engine_accounting (way4 visa : List Recon.Matching.Txn)
    (rules : Recon.Matching.RuleSet) :
    (∀ t ∈ way4,
      (∃ m ∈ (Recon.Matching.match_transactions way4 visa rules).1,
        m.left_txn_id = t.txn_id) ∨
      (∃ e ∈ (Recon.Matching.match_transactions way4 visa rules).2,
        e.primary_txn_id = t.txn_id)) ∧
    (∀ t ∈ visa,
      Recon.Matching.countRight (Recon.Matching.match_transactions way4 visa rules).1
        t.txn_id ≤ 1) ∧
    (∀ t ∈ visa,
      ((∃ e ∈ (Recon.Matching.match_transactions way4 visa rules).2,
          e.category = "MISSING_IN_WAY4" ∧ e.primary_txn_id = t.txn_id) ↔
        ¬ ∃ m ∈ (Recon.Matching.match_transactions way4 visa rules).1,
          m.right_txn_id = some t.txn_id)) := by
  obtain ⟨hnd, hkvv, hkvw, hA, hB, hC, hD, hEx, hT⟩ := engineStage4_inv way4 visa rules
  obtain ⟨hm, hv, he⟩ := engineFinal_eqs way4 visa rules
  rw [match_transactions_eq_engineFinal]
  refine ⟨?_, ?_, ?_⟩
  · intro t ht
    have h0 : Recon.Matching.dmem (Recon.Matching.seedDict way4) t.txn_id = true :=
      seedDict_mem way4 t ht
    rcases hD t.txn_id h0 with hdm | ⟨m', hm', hme⟩
    · right
      obtain ⟨p, hp, hpe⟩ := (dmem_iff_exists _ _).mp hdm
      refine ⟨{ primary_txn_id := p.2.txn_id
                category := "MISSING_IN_VISA"
                severity := "MEDIUM"
                status := "NEW"
                reason := "No cross-source candidate found" }, ?_, ?_⟩
      · rw [he]
        refine List.mem_append_left _ (List.mem_append_right _ ?_)
        refine List.mem_map.mpr ⟨p.2, ?_, rfl⟩
        exact List.mem_map_of_mem Prod.snd hp
      · show p.2.txn_id = t.txn_id
        rw [← hkvw p hp]
        exact hpe
    · left
      exact ⟨m', by rw [hm]; exact hm', hme⟩
  · intro t ht
    rw [hm]
    exact hB t.txn_id
  · intro t ht
    constructor
    · rintro ⟨e, hee, hcat, hprim⟩ ⟨m', hm', hme⟩
      rw [he] at hee
      rcases List.mem_append.mp hee with hee | hee
      · rcases List.mem_append.mp hee with hee | hee
        · have hdup := hEx e hee
          rw [hcat] at hdup
          exact absurd hdup (by decide)
        · obtain ⟨wv, -, rfl⟩ := List.mem_map.mp hee
          have hlit : ("MISSING_IN_VISA" : String) = "MISSING_IN_WAY4" := hcat
          exact absurd hlit (by decide)
      · obtain ⟨vv, hvv, rfl⟩ := List.mem_map.mp hee
        have hdm : Recon.Matching.dmem
            (Recon.Matching.engineStage4 way4 visa rules).visa_left vv.txn_id = true :=
          dvalues_dmem hkvv hvv
        have hzero := hA vv.txn_id hdm
        rw [countRight_eq_zero_iff] at hzero
        rw [hm] at hm'
        apply hzero m' hm'
        rw [hme]
        have : vv.txn_id = t.txn_id := hprim
        rw [this]
    · intro hno
      have h0 : Recon.Matching.dmem (Recon.Matching.seedDict visa) t.txn_id = true :=
        seedDict_mem visa t ht
      rcases hC t.txn_id h0 with hdm | ⟨m', hm', hme⟩
      · obtain ⟨p, hp, hpe⟩ := (dmem_iff_exists _ _).mp hdm
        refine ⟨Recon.Matching.missingWay4Row p.2, ?_, rfl, ?_⟩
        · rw [he]
          refine List.mem_append_right _ ?_
          exact List.mem_map_of_mem _ (List.mem_map_of_mem Prod.snd hp)
        · show p.2.txn_id = t.txn_id
          rw [← hkvv p hp]
          exact hpe
      · exact absurd ⟨m', by rw [hm]; exact hm', hme⟩ hno

/-- Witness for C10 on a one-by-one exact-match cohort: the left txn is
accounted for by a match record. -/
theorem C10_engine_accounting_witness :
    (⟨"W1", "WAY4_EXPORT", "2026-02-22", "R", none, 100, "KZT", 0, "PURCHASE", "M1", "POS"⟩ :
        Recon.Matching.Txn) ∈
      [(⟨"W1", "WAY4_EXPORT", "2026-02-22", "R", none, 100, "KZT", 0, "PURCHASE", "M1", "POS"⟩ :
        Recon.Matching.Txn)] ∧
    ((∃ m ∈ (Recon.Matching.match_transactions
        [⟨"W1", "WAY4_EXPORT", "2026-02-22", "R", none, 100, "KZT", 0, "PURCHASE", "M1", "POS"⟩]
        [⟨"V1", "VISA_EXPORT", "2026-02-22", "R", none, 100, "KZT", 0, "CLEARING", "M1", "POS"⟩]
        ⟨"v1", 2, 1, 3/4⟩).1,
      m.left_txn_id = (⟨"W1", "WAY4_EXPORT", "2026-02-22", "R", none, 100, "KZT", 0,
        "PURCHASE", "M1", "POS"⟩ : Recon.Matching.Txn).txn_id) ∨
    (∃ e ∈ (Recon.Matching.match_transactions
        [⟨"W1", "WAY4_EXPORT", "2026-02-22", "R", none, 100, "KZT", 0, "PURCHASE", "M1", "POS"⟩]
        [⟨"V1", "VISA_EXPORT", "2026-02-22", "R", none, 100, "KZT", 0, "CLEARING", "M1", "POS"⟩]
        ⟨"v1", 2, 1, 3/4⟩).2,
      e.primary_txn_id = (⟨"W1", "WAY4_EXPORT", "2026-02-22", "R", none, 100, "KZT", 0,
        "PURCHASE", "M1", "POS"⟩ : Recon.Matching.Txn).txn_id)) :=
  ⟨List.mem_singleton.mpr rfl,
    (C10_engine_accounting
      [⟨"W1", "WAY4_EXPORT", "2026-02-22", "R", none, 100, "KZT", 0, "PURCHASE", "M1", "POS"⟩]
      [⟨"V1", "VISA_EXPORT", "2026-02-22", "R", none, 100, "KZT", 0, "CLEARING", "M1", "POS"⟩]
      ⟨"v1", 2, 1, 3/4⟩).1 _ (List.mem_singleton.mpr rfl)⟩
